import Mathlib

/-!
# Verification of the customs-insight analytics core

A shallow embedding, in Lean 4, of the analytics pipeline of the
customs-insight repository, together with theorems settling the frozen
specification claims.

The embedding conventions:

* Python/pandas floats are modelled as rationals (`ℚ`).  `round(x, n)` in
  Python and `.round(n)` in pandas both round half-to-even on the exact
  value, modelled by `roundHalfEven`.
* pandas cells that can be `NaN`/`±inf` (the derived percentage columns of
  the dashboard enricher and the quarterly roll-up) are modelled by `PVal`,
  whose arithmetic mirrors IEEE semantics on exact rationals:
  division of a nonzero value by zero gives `±inf`, `0/0` gives `nan`.
* Python strings are modelled as `List Char`; `YYYY-MM` date keys and the
  freeform period labels are kept as strings because the source manipulates
  them with string operations (`split`, `zfill`, f-strings, regex).
* Fallible Python code (functions that may raise) returns `Except String`.
-/

set_option linter.unusedVariables false

/-! ## Python numeric primitives -/

/-- Round half to even, Python's `round`/numpy's `rint` tie-breaking,
on the exact rational value. -/
def roundHalfEven (q : ℚ) : ℤ :=
  let f := q.floor
  let r := q - f
  if r < 1 / 2 then f
  else if 1 / 2 < r then f + 1
  else if f % 2 = 0 then f else f + 1

/-- Python `round(x, 2)`: two-decimal rounding (half to even). -/
def pyRound2 (q : ℚ) : ℚ := (roundHalfEven (q * 100) : ℚ) / 100

/-- Python `round(x)` / pandas `.round(0)`: round to integer (half to even). -/
def pyRound0 (q : ℚ) : ℚ := (roundHalfEven q : ℚ)

/-! ## Growth calculator (`src/domain/calculations/analysis.py`)

`TradeRecord` and `AnalysisResult` come from `src/domain/models.py`;
their pydantic validation (`date` matching `^\d{4}-\d{2}$`, amount `≥ 0`)
is enforced at construction sites (`dataframe_to_trade_records`), not
baked into the structure, exactly as in the source. -/

/-- `TradeRecord` of `models.py`: a date string and an export amount.  -/
structure TradeRecord where
  date : List Char
  export_amount : ℚ
  deriving DecidableEq, Repr

/-- `AnalysisResult` of `models.py`: `TradeRecord` plus derived MoM/YoY. -/
structure AnalysisResult where
  date : List Char
  export_amount : ℚ
  export_mom : Option ℚ
  export_yoy : Option ℚ
  deriving DecidableEq, Repr

/-- `calculate_percentage_change` of `analysis.py` (lines 14-35):
`None` when `previous == 0`, otherwise `round(((current - previous) /
previous) * 100, 2)`.  Total — the zero check precedes the division. -/
def calculate_percentage_change (current previous : ℚ) : Option ℚ :=
  if previous = 0 then none
  else some (pyRound2 ((current - previous) / previous * 100))

/-- `calculate_mom` of `analysis.py` (lines 38-81): positional lag-1
percentage change over the list; the first record gets `None`.  The
source's `enumerate` loop is the indexed map below; `records[i - 1]` is
total in the source for `i ≥ 1`, modelled by the `getElem?` match. -/
def calculate_mom (records : List TradeRecord) : List AnalysisResult :=
  records.mapIdx fun i record =>
    { date := record.date
      export_amount := record.export_amount
      export_mom :=
        if i = 0 then none
        else
          match records[i - 1]? with
          | some prev => calculate_percentage_change record.export_amount prev.export_amount
          | none => none
      export_yoy := none }

/-- The date-keyed index `amount_by_date = {r.date: r.export_amount for r
in records}` of `calculate_yoy`; a Python dict comprehension keeps the
last record for a duplicated key, hence the `reverse.find?`. -/
def amount_by_date (records : List AnalysisResult) (d : List Char) : Option ℚ :=
  (records.reverse.find? fun r => r.date = d).map (·.export_amount)

/-- The same date-keyed index over the raw `TradeRecord` series (used to
state C1 against the pipeline's input). -/
def trade_amount_by_date (records : List TradeRecord) (d : List Char) : Option ℚ :=
  (records.reverse.find? fun r => r.date = d).map (·.export_amount)

/-- `int(s)` on a validated all-digit string. -/
def digitsToNat (s : List Char) : ℕ :=
  s.foldl (fun n c => 10 * n + (c.toNat - '0'.toNat)) 0

/-- Python `str(n)` for an integer. -/
def intToChars (n : ℤ) : List Char :=
  if n < 0 then '-' :: Nat.toDigits 10 n.natAbs else Nat.toDigits 10 n.toNat

/-- `year, month = record.date.split('-')` on a `YYYY-MM` date: the part
before the first dash and the part after it. -/
def splitFirstDash (s : List Char) : List Char × List Char :=
  (s.takeWhile (fun c => c ≠ '-'), (s.dropWhile (fun c => c ≠ '-')).drop 1)

/-- The lookup key built by `calculate_yoy` (lines 117-119):
`prev_date = f"{str(int(year) - 1)}-{month}"`. -/
def prevYearDate (d : List Char) : List Char :=
  let year := (splitFirstDash d).1
  let month := (splitFirstDash d).2
  intToChars ((digitsToNat year : ℤ) - 1) ++ '-' :: month

/-- `calculate_yoy` of `analysis.py` (lines 84-136): calendar-matched
lookup of the record dated one year earlier in the date-keyed index;
`None` when absent.  MoM is copied through unchanged. -/
def calculate_yoy (records : List AnalysisResult) : List AnalysisResult :=
  records.map fun record =>
    let prev_date := prevYearDate record.date
    { date := record.date
      export_amount := record.export_amount
      export_mom := record.export_mom
      export_yoy :=
        match amount_by_date records prev_date with
        | some prev => calculate_percentage_change record.export_amount prev
        | none => none }

/-- `calculate_mom_and_yoy` of `analysis.py` (lines 139-168). -/
def calculate_mom_and_yoy (records : List TradeRecord) : List AnalysisResult :=
  calculate_yoy (calculate_mom records)

/-! ## C2 -/

/-- **C2**: for every pair `(current, previous)`, `calculate_percentage_change`
returns `None` when `previous = 0`, `0` when `current = previous ≠ 0`, and
otherwise `round((current - previous) / previous * 100, 2)`.  The function
is total in the embedding — the source's zero test precedes the division,
so it never raises `ZeroDivisionError`. -/
theorem C2_percentage_change (current previous : ℚ) :
    (previous = 0 → calculate_percentage_change current previous = none) ∧
    (previous ≠ 0 → current = previous →
      calculate_percentage_change current previous = some 0) ∧
    (previous ≠ 0 →
      calculate_percentage_change current previous =
        some (pyRound2 ((current - previous) / previous * 100))) := by
  refine ⟨fun h => by simp [calculate_percentage_change, h], ?_, ?_⟩
  · intro h he
    subst he
    simp only [calculate_percentage_change, if_neg h, sub_self, zero_div, zero_mul]
    have h0 : pyRound2 0 = 0 := by with_unfolding_all decide
    rw [h0]
  · intro h
    simp [calculate_percentage_change, h]

/-- Witness for C2 at concrete inputs: division by zero gives `None`,
equal values give `0`, and `(150, 100)` gives `50.0`. -/
theorem C2_percentage_change_witness :
    calculate_percentage_change 100 0 = none ∧
    calculate_percentage_change 100 100 = some 0 ∧
    calculate_percentage_change 150 100 = some 50 := by
  refine ⟨(C2_percentage_change 100 0).1 rfl,
          (C2_percentage_change 100 100).2.1 (by norm_num) rfl, ?_⟩
  rw [(C2_percentage_change 150 100).2.2 (by norm_num)]
  with_unfolding_all decide

/-! ## Frame lemmas for the growth calculator -/

/-- Projection of an `AnalysisResult` to its underlying series entry. -/
def projA (r : AnalysisResult) : List Char × ℚ := (r.date, r.export_amount)

/-- Projection of a `TradeRecord` to its series entry. -/
def projT (r : TradeRecord) : List Char × ℚ := (r.date, r.export_amount)

lemma calculate_mom_map_proj (records : List TradeRecord) :
    (calculate_mom records).map projA = records.map projT := by
  rw [calculate_mom, List.mapIdx_eq_ofFn, List.map_ofFn]
  conv_rhs => rw [← List.ofFn_get records, List.map_ofFn]
  rfl

lemma calculate_yoy_map_proj (results : List AnalysisResult) :
    (calculate_yoy results).map projA = results.map projA := by
  rw [calculate_yoy, List.map_map]
  rfl

lemma calculate_yoy_mom_preserved (results : List AnalysisResult) :
    (calculate_yoy results).map (fun r => (r.date, r.export_amount, r.export_mom)) =
      results.map (fun r => (r.date, r.export_amount, r.export_mom)) := by
  rw [calculate_yoy, List.map_map]
  rfl

lemma length_calculate_mom (records : List TradeRecord) :
    (calculate_mom records).length = records.length := by
  rw [calculate_mom, List.length_mapIdx]

lemma length_calculate_yoy (results : List AnalysisResult) :
    (calculate_yoy results).length = results.length := by
  rw [calculate_yoy, List.length_map]

/-- The date-keyed index over the MoM stage's output agrees with the one
over the raw input series: `calculate_mom` changes neither dates nor
amounts, so the dict built by `calculate_yoy` indexes the input data. -/
lemma amount_by_date_calculate_mom (records : List TradeRecord) (d : List Char) :
    amount_by_date (calculate_mom records) d = trade_amount_by_date records d := by
  have hrev : (calculate_mom records).reverse.map projA = records.reverse.map projT := by
    rw [List.map_reverse, List.map_reverse, calculate_mom_map_proj]
  have e₁ : ((calculate_mom records).reverse.map projA).find? (fun x => x.1 = d) =
      ((calculate_mom records).reverse.find? (fun r => r.date = d)).map projA := by
    rw [List.find?_map]
    rfl
  have e₂ : (records.reverse.map projT).find? (fun x => x.1 = d) =
      (records.reverse.find? (fun r => r.date = d)).map projT := by
    rw [List.find?_map]
    rfl
  have key : ((calculate_mom records).reverse.find? (fun r => r.date = d)).map projA =
      (records.reverse.find? (fun r => r.date = d)).map projT := by
    rw [← e₁, ← e₂, hrev]
  unfold amount_by_date trade_amount_by_date
  have a₁ : ((calculate_mom records).reverse.find? (fun r => r.date = d)).map
        (fun r => r.export_amount) =
      (((calculate_mom records).reverse.find? (fun r => r.date = d)).map projA).map
        (fun x => x.2) := by
    rw [Option.map_map]
    rfl
  have a₂ : (records.reverse.find? (fun r => r.date = d)).map (fun r => r.export_amount) =
      ((records.reverse.find? (fun r => r.date = d)).map projT).map (fun x => x.2) := by
    rw [Option.map_map]
    rfl
  rw [a₁, a₂, key]

/-! ## C10 -/

/-- **C10**: the growth calculators are frame-preserving — `calculate_mom`
and `calculate_yoy` return lists of the input's length whose `date` and
`export_amount` agree positionally with the input, and `calculate_yoy`
also leaves `export_mom` unchanged at every position (stated as equality
of the projected lists, which forces positionwise equality and forbids
reordering). -/
theorem C10_growth_frame (records : List TradeRecord) (results : List AnalysisResult) :
    (calculate_mom records).length = records.length ∧
    (calculate_mom records).map (fun r => (r.date, r.export_amount)) =
      records.map (fun r => (r.date, r.export_amount)) ∧
    (calculate_yoy results).length = results.length ∧
    (calculate_yoy results).map (fun r => (r.date, r.export_amount, r.export_mom)) =
      results.map (fun r => (r.date, r.export_amount, r.export_mom)) ∧
    (calculate_mom_and_yoy records).length = records.length ∧
    (calculate_mom_and_yoy records).map (fun r => (r.date, r.export_amount)) =
      records.map (fun r => (r.date, r.export_amount)) := by
  refine ⟨length_calculate_mom records, calculate_mom_map_proj records,
    length_calculate_yoy results, calculate_yoy_mom_preserved results, ?_, ?_⟩
  · rw [calculate_mom_and_yoy, length_calculate_yoy, length_calculate_mom]
  · show (calculate_yoy (calculate_mom records)).map projA = records.map projT
    rw [calculate_yoy_map_proj, calculate_mom_map_proj]

/-! ## C1 -/

/-- The spec's gap-robust example series: `2023-01=100, 2023-02=110,
2024-01=150`. -/
def exC1 : List TradeRecord :=
  [⟨['2','0','2','3','-','0','1'], 100⟩,
   ⟨['2','0','2','3','-','0','2'], 110⟩,
   ⟨['2','0','2','4','-','0','1'], 150⟩]

set_option maxRecDepth 8000 in
/-- **C1**: over a monthly series sorted ascending by date,
`calculate_mom_and_yoy` computes MoM positionally (record `i` against
record `i-1`, the first record getting `None`) and YoY calendar-matched
(the record at `Y-M` against the entry at key `str(int(Y)-1)-M` of the
date-keyed index, `None` when absent); on the example series
`2023-01=100, 2023-02=110, 2024-01=150` the `2024-01` record gets
`MoM = 36.36` (`909/25`) and `YoY = 50.0`. -/
theorem C1_mom_positional_yoy_calendar (records : List TradeRecord)
    (hsorted : List.Pairwise (fun a b => a.date ≤ b.date) records) :
    (calculate_mom_and_yoy records).length = records.length ∧
    (∀ i, ∀ h : i < records.length, ∀ ho : i < (calculate_mom_and_yoy records).length,
      ((calculate_mom_and_yoy records)[i].export_mom =
        if i = 0 then none
        else calculate_percentage_change records[i].export_amount
          records[i - 1].export_amount) ∧
      ((calculate_mom_and_yoy records)[i].export_yoy =
        match trade_amount_by_date records (prevYearDate records[i].date) with
        | some prev => calculate_percentage_change records[i].export_amount prev
        | none => none)) ∧
    calculate_mom_and_yoy exC1 =
      [⟨['2','0','2','3','-','0','1'], 100, none, none⟩,
       ⟨['2','0','2','3','-','0','2'], 110, some 10, none⟩,
       ⟨['2','0','2','4','-','0','1'], 150, some (909/25), some 50⟩] := by
  refine ⟨?_, ?_, ?_⟩
  · rw [calculate_mom_and_yoy, length_calculate_yoy, length_calculate_mom]
  · intro i h ho
    have hm : i < (calculate_mom records).length := by
      rw [length_calculate_mom]; exact h
    have hout : (calculate_mom_and_yoy records)[i] =
        (calculate_yoy (calculate_mom records))[i] := rfl
    have hyoy_get : (calculate_yoy (calculate_mom records))[i] =
        (let record := (calculate_mom records)[i]
         let prev_date := prevYearDate record.date
         { date := record.date
           export_amount := record.export_amount
           export_mom := record.export_mom
           export_yoy :=
             match amount_by_date (calculate_mom records) prev_date with
             | some prev => calculate_percentage_change record.export_amount prev
             | none => none } : AnalysisResult) := by
      simp only [calculate_yoy, List.getElem_map]
    have hmom_get : (calculate_mom records)[i] =
        ({ date := records[i].date
           export_amount := records[i].export_amount
           export_mom :=
             if i = 0 then none
             else
               match records[i - 1]? with
               | some prev =>
                   calculate_percentage_change records[i].export_amount prev.export_amount
               | none => none
           export_yoy := none } : AnalysisResult) := by
      simp only [calculate_mom, List.getElem_mapIdx]
    constructor
    · rw [hout, hyoy_get]
      show (calculate_mom records)[i].export_mom =
        if i = 0 then none
        else calculate_percentage_change records[i].export_amount
          records[i - 1].export_amount
      rw [hmom_get]
      by_cases h0 : i = 0
      · simp [h0]
      · have h1 : i - 1 < records.length := by omega
        simp only [if_neg h0, List.getElem?_eq_getElem h1]
    · rw [hout, hyoy_get]
      show (match amount_by_date (calculate_mom records)
              (prevYearDate (calculate_mom records)[i].date) with
            | some prev =>
                calculate_percentage_change (calculate_mom records)[i].export_amount prev
            | none => none) =
        match trade_amount_by_date records (prevYearDate records[i].date) with
        | some prev => calculate_percentage_change records[i].export_amount prev
        | none => none
      have hdate : (calculate_mom records)[i].date = records[i].date := by
        rw [hmom_get]
      have hamt : (calculate_mom records)[i].export_amount = records[i].export_amount := by
        rw [hmom_get]
      rw [hdate, hamt, amount_by_date_calculate_mom]
  · with_unfolding_all decide

/-- Witness for C1: the example series is sorted, and the `2024-01`
record's MoM/YoY computed by the pipeline match the spec's numbers. -/
theorem C1_mom_positional_yoy_calendar_witness :
    (calculate_mom_and_yoy exC1).length = exC1.length ∧
    calculate_mom_and_yoy exC1 =
      [⟨['2','0','2','3','-','0','1'], 100, none, none⟩,
       ⟨['2','0','2','3','-','0','2'], 110, some 10, none⟩,
       ⟨['2','0','2','4','-','0','1'], 150, some (909/25), some 50⟩] := by
  have h := C1_mom_positional_yoy_calendar exC1 (by decide)
  exact ⟨h.1, h.2.2⟩

/-! ## Period parser (`src/domain/calculations/date_parsing.py` and the
parse loop of `src/domain/calculations/pipeline.py`) -/

/-- Python `str.strip()`: drop whitespace from both ends. -/
def pstrip (s : List Char) : List Char :=
  ((s.dropWhile Char.isWhitespace).reverse.dropWhile Char.isWhitespace).reverse

/-- `parse_year` of `date_parsing.py` (lines 14-33):
`re.match(r'(\d{4})년', s.strip())` — four digits at the start of the
stripped label, immediately followed by the year marker `년`; the match
is unanchored at the right, so trailing text is allowed. -/
def parse_year (period : List Char) : Option (List Char) :=
  match pstrip period with
  | a :: b :: c :: d :: e :: _ =>
    if a.isDigit && b.isDigit && c.isDigit && d.isDigit && (e == '년') then
      some [a, b, c, d]
    else none
  | _ => none

/-- `parse_month` of `date_parsing.py` (lines 36-57):
`re.match(r'(\d{1,2})월', s.strip())` with `.zfill(2)` applied to the
captured group.  The regex engine tries the greedy two-digit match first
and backtracks to one digit, reproduced by the two branches. -/
def parse_month (period : List Char) : Option (List Char) :=
  match pstrip period with
  | a :: b :: rest =>
    if a.isDigit && b.isDigit && rest.head? == some '월' then some [a, b]
    else if a.isDigit && (b == '월') then some ['0', a]
    else none
  | _ => none

/-- Python `month.zfill(2)`. -/
def zfill2 (s : List Char) : List Char := List.replicate (2 - s.length) '0' ++ s

/-- `format_date` of `date_parsing.py` (lines 100-117):
`f"{year}-{month.zfill(2)}"`. -/
def format_date (year month : List Char) : List Char := year ++ '-' :: zfill2 month

/-- `parse_period_row` of `date_parsing.py` (lines 60-97).  Year rows win;
month rows parse only with a year context.  Python truthiness of the
matched strings coincides with `Option.isSome` here because a successful
match is never the empty string. -/
def parse_period_row (period : List Char) (current_year : Option (List Char)) :
    Option (List Char) × Option (List Char) :=
  let stripped := pstrip period
  match parse_year stripped with
  | some y => (some y, none)
  | none =>
    match parse_month stripped, current_year with
    | some m, some y => (some y, some m)
    | _, _ => (none, none)

/-- One raw input row of `parse_and_aggregate_dataframe`: the first two
positional columns `(period_raw, export_amount)`.  `export_amount` is
`some q` when Python's `float(...)` succeeds with the finite value `q`,
`none` when it raises (`ValueError`/`TypeError`). -/
structure RawRow where
  period_raw : List Char
  export_amount : Option ℚ
  deriving DecidableEq, Repr

/-- The row loop of `parse_and_aggregate_dataframe` (`pipeline.py` lines
70-93): a fold carrying `current_year`; year rows update the state and
emit nothing, month rows with a year context emit
`(format_date year month, amount-or-0)`, all other rows emit nothing. -/
def parseRows : List RawRow → Option (List Char) → List (List Char × ℚ)
  | [], _ => []
  | row :: rest, current_year =>
    match parse_period_row (pstrip row.period_raw) current_year with
    | (some y, none) => parseRows rest (some y)
    | (some y, some m) =>
        (format_date y m, row.export_amount.getD 0) :: parseRows rest current_year
    | _ => parseRows rest current_year

/-- Claim-side year pattern (spec 4.1): the stripped label starts with a
4-digit group followed by the year marker. -/
def isYearLabel (s y : List Char) : Prop :=
  ∃ rest, pstrip s = y ++ '년' :: rest ∧ y.length = 4 ∧ ∀ c ∈ y, c.isDigit = true

/-- Claim-side month pattern (spec 4.1): the stripped label starts with a
1- or 2-digit group followed by the month marker. -/
def isMonthLabel (s m : List Char) : Prop :=
  ∃ rest, pstrip s = m ++ '월' :: rest ∧ (m.length = 1 ∨ m.length = 2) ∧
    ∀ c ∈ m, c.isDigit = true

lemma list_of_length_four {α : Type} : ∀ (y : List α), y.length = 4 →
    ∃ a b c d, y = [a, b, c, d]
  | [a, b, c, d], _ => ⟨a, b, c, d, rfl⟩
  | [], h => by simp only [List.length_nil] at h; omega
  | [a], h => by simp only [List.length_cons, List.length_nil] at h; omega
  | [a, b], h => by simp only [List.length_cons, List.length_nil] at h; omega
  | [a, b, c], h => by simp only [List.length_cons, List.length_nil] at h; omega
  | a :: b :: c :: d :: e :: t, h => by
      simp only [List.length_cons] at h
      omega

lemma list_of_length_one {α : Type} : ∀ (y : List α), y.length = 1 → ∃ a, y = [a]
  | [a], _ => ⟨a, rfl⟩
  | [], h => by simp only [List.length_nil] at h; omega
  | a :: b :: t, h => by
      simp only [List.length_cons] at h
      omega

lemma list_of_length_two {α : Type} : ∀ (y : List α), y.length = 2 → ∃ a b, y = [a, b]
  | [a, b], _ => ⟨a, b, rfl⟩
  | [], h => by simp only [List.length_nil] at h; omega
  | [a], h => by simp only [List.length_cons, List.length_nil] at h; omega
  | a :: b :: c :: t, h => by
      simp only [List.length_cons] at h
      omega

/-- The source regex `(\d{4})년` matches (returning the digit group)
exactly when the stripped label fits the spec's year pattern. -/
lemma parse_year_iff (s y : List Char) :
    parse_year s = some y ↔ isYearLabel s y := by
  unfold parse_year isYearLabel
  cases hps : pstrip s with
  | nil =>
      dsimp only
      constructor
      · intro h; exact absurd h (by simp)
      · rintro ⟨r, heq, hlen, -⟩
        have hl := congrArg List.length heq
        simp only [List.length_nil, List.length_append, List.length_cons, hlen] at hl
        omega
  | cons a t1 =>
    cases t1 with
    | nil =>
        dsimp only
        constructor
        · intro h; exact absurd h (by simp)
        · rintro ⟨r, heq, hlen, -⟩
          have hl := congrArg List.length heq
          simp only [List.length_cons, List.length_nil, List.length_append, hlen] at hl
          omega
    | cons b t2 =>
      cases t2 with
      | nil =>
          dsimp only
          constructor
          · intro h; exact absurd h (by simp)
          · rintro ⟨r, heq, hlen, -⟩
            have hl := congrArg List.length heq
            simp only [List.length_cons, List.length_nil, List.length_append, hlen] at hl
            omega
      | cons c t3 =>
        cases t3 with
        | nil =>
            dsimp only
            constructor
            · intro h; exact absurd h (by simp)
            · rintro ⟨r, heq, hlen, -⟩
              have hl := congrArg List.length heq
              simp only [List.length_cons, List.length_nil, List.length_append, hlen] at hl
              omega
        | cons d t4 =>
          cases t4 with
          | nil =>
              dsimp only
              constructor
              · intro h; exact absurd h (by simp)
              · rintro ⟨r, heq, hlen, -⟩
                have hl := congrArg List.length heq
                simp only [List.length_cons, List.length_nil, List.length_append, hlen] at hl
                omega
          | cons e rest =>
            dsimp only
            constructor
            · intro h
              by_cases hc :
                  (a.isDigit && b.isDigit && c.isDigit && d.isDigit && (e == '년')) = true
              · rw [if_pos hc] at h
                have hy : y = [a, b, c, d] := (Option.some.inj h).symm
                subst hy
                simp only [Bool.and_eq_true, beq_iff_eq] at hc
                obtain ⟨⟨⟨⟨ha, hb⟩, hcd⟩, hd⟩, he⟩ := hc
                subst he
                refine ⟨rest, rfl, rfl, ?_⟩
                intro x hx
                simp only [List.mem_cons, List.not_mem_nil, or_false] at hx
                rcases hx with rfl | rfl | rfl | rfl
                · exact ha
                · exact hb
                · exact hcd
                · exact hd
              · rw [if_neg hc] at h
                exact absurd h (by simp)
            · rintro ⟨r, heq, hlen, hdig⟩
              obtain ⟨y0, y1, y2, y3, rfl⟩ := list_of_length_four y hlen
              simp only [List.cons_append, List.nil_append, List.cons.injEq] at heq
              obtain ⟨rfl, rfl, rfl, rfl, rfl, rfl⟩ := heq
              have h0 := hdig a (by simp)
              have h1 := hdig b (by simp)
              have h2 := hdig c (by simp)
              have h3 := hdig d (by simp)
              rw [if_pos (by simp [h0, h1, h2, h3])]

/-- The source regex `(\d{1,2})월` (greedy, with backtracking) matches,
returning the zero-padded group, exactly when the stripped label fits the
spec's month pattern. -/
lemma parse_month_iff (s m' : List Char) :
    parse_month s = some m' ↔ ∃ m, isMonthLabel s m ∧ m' = zfill2 m := by
  unfold parse_month isMonthLabel
  cases hps : pstrip s with
  | nil =>
      dsimp only
      constructor
      · intro h; exact absurd h (by simp)
      · rintro ⟨m, ⟨r, heq, hlen, -⟩, -⟩
        have hl := congrArg List.length heq
        simp only [List.length_nil, List.length_append, List.length_cons] at hl
        omega
  | cons a t1 =>
    cases t1 with
    | nil =>
        dsimp only
        constructor
        · intro h; exact absurd h (by simp)
        · rintro ⟨m, ⟨r, heq, hlen, hdig⟩, -⟩
          have hl := congrArg List.length heq
          simp only [List.length_cons, List.length_nil, List.length_append] at hl
          omega
    | cons b rest =>
      dsimp only
      constructor
      · intro h
        by_cases hc : (a.isDigit && b.isDigit && (rest.head? == some '월')) = true
        · rw [if_pos hc] at h
          have hm : m' = [a, b] := (Option.some.inj h).symm
          subst hm
          simp only [Bool.and_eq_true, beq_iff_eq] at hc
          obtain ⟨⟨ha, hb⟩, hh⟩ := hc
          cases rest with
          | nil => simp at hh
          | cons r0 rtail =>
            simp only [List.head?_cons, Option.some.injEq] at hh
            subst hh
            refine ⟨[a, b], ⟨rtail, rfl, Or.inr rfl, ?_⟩, rfl⟩
            intro x hx
            simp only [List.mem_cons, List.not_mem_nil, or_false] at hx
            rcases hx with rfl | rfl
            · exact ha
            · exact hb
        · rw [if_neg hc] at h
          by_cases hc2 : (a.isDigit && (b == '월')) = true
          · rw [if_pos hc2] at h
            have hm : m' = ['0', a] := (Option.some.inj h).symm
            subst hm
            simp only [Bool.and_eq_true, beq_iff_eq] at hc2
            obtain ⟨ha, hb⟩ := hc2
            subst hb
            refine ⟨[a], ⟨rest, rfl, Or.inl rfl, ?_⟩, rfl⟩
            intro x hx
            simp only [List.mem_cons, List.not_mem_nil, or_false] at hx
            rcases hx with rfl
            exact ha
          · rw [if_neg hc2] at h
            exact absurd h (by simp)
      · rintro ⟨m, ⟨r, heq, hlen, hdig⟩, hz⟩
        subst hz
        rcases hlen with h1 | h2
        · obtain ⟨m0, rfl⟩ := list_of_length_one m h1
          simp only [List.cons_append, List.nil_append, List.cons.injEq] at heq
          obtain ⟨rfl, rfl, rfl⟩ := heq
          have hd0 := hdig a (by simp)
          rw [if_neg (by simp), if_pos (by simp [hd0])]
          rfl
        · obtain ⟨m0, m1, rfl⟩ := list_of_length_two m h2
          simp only [List.cons_append, List.nil_append, List.cons.injEq] at heq
          obtain ⟨rfl, rfl, rfl⟩ := heq
          have hd0 := hdig a (by simp)
          have hd1 := hdig b (by simp)
          rw [if_pos (by simp [hd0, hd1])]
          rfl

lemma head?_dropWhile_not {α : Type} (p : α → Bool) :
    ∀ (l : List α) (x : α), (l.dropWhile p).head? = some x → p x = false := by
  intro l
  induction l with
  | nil => intro x h; simp at h
  | cons a t ih =>
      intro x h
      rw [List.dropWhile_cons] at h
      by_cases hp : p a = true
      · rw [if_pos hp] at h
        exact ih x h
      · rw [if_neg hp] at h
        simp only [List.head?_cons, Option.some.injEq] at h
        subst h
        simp only [Bool.not_eq_true] at hp
        exact hp

lemma dropWhile_eq_self_of_head {α : Type} (p : α → Bool) (l : List α)
    (h : ∀ x, l.head? = some x → p x = false) : l.dropWhile p = l := by
  cases l with
  | nil => rfl
  | cons a t =>
      rw [List.dropWhile_cons, if_neg]
      simp [h a rfl]

lemma getLast?_dropWhile {α : Type} (p : α → Bool) :
    ∀ (l : List α), l.dropWhile p ≠ [] → (l.dropWhile p).getLast? = l.getLast? := by
  intro l
  induction l with
  | nil => intro h; simp at h
  | cons a t ih =>
      intro hne
      rw [List.dropWhile_cons] at hne ⊢
      by_cases hp : p a = true
      · rw [if_pos hp] at hne ⊢
        have ht : t ≠ [] := by
          intro h0
          subst h0
          simp at hne
        rw [ih hne]
        cases t with
        | nil => exact absurd rfl ht
        | cons b u => rw [List.getLast?_cons_cons]
      · rw [if_neg hp]

/-- Python's `strip()` is idempotent; the source strips the period label
once in the pipeline loop and again inside each parse function. -/
lemma pstrip_idem (s : List Char) : pstrip (pstrip s) = pstrip s := by
  unfold pstrip
  have hPA : ∀ x, (s.dropWhile Char.isWhitespace).head? = some x →
      Char.isWhitespace x = false := fun x hx => head?_dropWhile_not _ s x hx
  have hPB : ∀ x,
      ((s.dropWhile Char.isWhitespace).reverse.dropWhile Char.isWhitespace).head? = some x →
      Char.isWhitespace x = false :=
    fun x hx => head?_dropWhile_not _ (s.dropWhile Char.isWhitespace).reverse x hx
  have h1 :
      ((s.dropWhile Char.isWhitespace).reverse.dropWhile
          Char.isWhitespace).reverse.dropWhile Char.isWhitespace =
        ((s.dropWhile Char.isWhitespace).reverse.dropWhile Char.isWhitespace).reverse := by
    apply dropWhile_eq_self_of_head
    intro x hx
    rw [List.head?_reverse] at hx
    by_cases hBnil :
        (s.dropWhile Char.isWhitespace).reverse.dropWhile Char.isWhitespace = []
    · rw [hBnil] at hx
      simp at hx
    · rw [getLast?_dropWhile _ _ hBnil, List.getLast?_reverse] at hx
      exact hPA x hx
  rw [h1, List.reverse_reverse,
    dropWhile_eq_self_of_head _ _ hPB]

lemma isYearLabel_pstrip (s y : List Char) :
    isYearLabel (pstrip (pstrip s)) y ↔ isYearLabel s y := by
  unfold isYearLabel
  rw [pstrip_idem, pstrip_idem]

lemma isMonthLabel_pstrip (s m : List Char) :
    isMonthLabel (pstrip (pstrip s)) m ↔ isMonthLabel s m := by
  unfold isMonthLabel
  rw [pstrip_idem, pstrip_idem]

lemma zfill2_of_length_two (l : List Char) (h : l.length = 2) : zfill2 l = l := by
  unfold zfill2
  rw [h]
  rfl

lemma zfill2_length_two (m : List Char) (h : m.length = 1 ∨ m.length = 2) :
    (zfill2 m).length = 2 := by
  unfold zfill2
  rcases h with h | h <;> rw [h] <;> simp [h]

lemma parseRows_cons (row : RawRow) (rest : List RawRow) (cy : Option (List Char)) :
    parseRows (row :: rest) cy =
      match parse_period_row (pstrip row.period_raw) cy with
      | (some y, none) => parseRows rest (some y)
      | (some y, some m) =>
          (format_date y m, row.export_amount.getD 0) :: parseRows rest cy
      | _ => parseRows rest cy := rfl

/-! ## C5 -/

lemma parse_year_eq_none_of_not_label (s : List Char)
    (h : ¬ ∃ y, isYearLabel s y) : parse_year (pstrip (pstrip s)) = none := by
  cases hpy : parse_year (pstrip (pstrip s)) with
  | none => rfl
  | some y0 =>
      exact absurd ⟨y0, (isYearLabel_pstrip s y0).mp ((parse_year_iff _ y0).mp hpy)⟩ h

lemma parse_month_eq_none_of_not_label (s : List Char)
    (h : ¬ ∃ m, isMonthLabel s m) : parse_month (pstrip (pstrip s)) = none := by
  cases hpm : parse_month (pstrip (pstrip s)) with
  | none => rfl
  | some m0 =>
      obtain ⟨m, hm, -⟩ := (parse_month_iff _ m0).mp hpm
      exact absurd ⟨m, (isMonthLabel_pstrip s m).mp hm⟩ h

/-- **C5**: the period parser is a 2-state fold over the row sequence
carrying `current_year`.  A row matching the year pattern (4 digits plus
the year marker) sets the state and emits nothing; a row matching the
month pattern (1-2 digits plus the month marker) emits
`(current_year-month)` with the month zero-padded to 2 digits and the
amount coerced to `0` when unparsable, but only when a year has been
seen — a month row in the no-year state, and any other label, emit
nothing.  All branches are total: the parser never raises on malformed
rows (every Lean function here is total by construction). -/
theorem C5_parser_state_machine (row : RawRow) (rest : List RawRow)
    (cy : Option (List Char)) :
    parseRows [] cy = [] ∧
    (∀ y, isYearLabel row.period_raw y →
      parseRows (row :: rest) cy = parseRows rest (some y)) ∧
    (∀ m y, (¬ ∃ y0, isYearLabel row.period_raw y0) →
      isMonthLabel row.period_raw m → cy = some y →
      parseRows (row :: rest) cy =
        (y ++ '-' :: zfill2 m, row.export_amount.getD 0) :: parseRows rest cy) ∧
    (∀ m, (¬ ∃ y0, isYearLabel row.period_raw y0) →
      isMonthLabel row.period_raw m → cy = none →
      parseRows (row :: rest) cy = parseRows rest cy) ∧
    ((¬ ∃ y0, isYearLabel row.period_raw y0) →
      (¬ ∃ m0, isMonthLabel row.period_raw m0) →
      parseRows (row :: rest) cy = parseRows rest cy) := by
  refine ⟨rfl, ?_, ?_, ?_, ?_⟩
  · intro y hy
    have hyy : parse_year (pstrip (pstrip row.period_raw)) = some y :=
      (parse_year_iff _ y).mpr ((isYearLabel_pstrip row.period_raw y).mpr hy)
    have hpr : parse_period_row (pstrip row.period_raw) cy = (some y, none) := by
      unfold parse_period_row
      dsimp only
      rw [hyy]
    rw [parseRows_cons, hpr]
  · intro m y hny hm hcy
    subst hcy
    have hyn : parse_year (pstrip (pstrip row.period_raw)) = none :=
      parse_year_eq_none_of_not_label row.period_raw hny
    have hmm : parse_month (pstrip (pstrip row.period_raw)) = some (zfill2 m) :=
      (parse_month_iff _ _).mpr ⟨m, (isMonthLabel_pstrip row.period_raw m).mpr hm, rfl⟩
    have hpr : parse_period_row (pstrip row.period_raw) (some y) =
        (some y, some (zfill2 m)) := by
      unfold parse_period_row
      dsimp only
      rw [hyn]
      dsimp only
      rw [hmm]
    rw [parseRows_cons, hpr]
    dsimp only
    have hlen2 : (zfill2 m).length = 2 := by
      obtain ⟨r, -, hlen, -⟩ := hm
      exact zfill2_length_two m hlen
    rw [show format_date y (zfill2 m) = y ++ '-' :: zfill2 m by
      unfold format_date
      rw [zfill2_of_length_two _ hlen2]]
  · intro m hny hm hcy
    subst hcy
    have hyn : parse_year (pstrip (pstrip row.period_raw)) = none :=
      parse_year_eq_none_of_not_label row.period_raw hny
    have hpr : parse_period_row (pstrip row.period_raw) none = (none, none) := by
      unfold parse_period_row
      dsimp only
      rw [hyn]
      dsimp only
      cases parse_month (pstrip (pstrip row.period_raw)) <;> rfl
    rw [parseRows_cons, hpr]
  · intro hny hnm
    have hyn : parse_year (pstrip (pstrip row.period_raw)) = none :=
      parse_year_eq_none_of_not_label row.period_raw hny
    have hmn : parse_month (pstrip (pstrip row.period_raw)) = none :=
      parse_month_eq_none_of_not_label row.period_raw hnm
    have hpr : parse_period_row (pstrip row.period_raw) cy = (none, none) := by
      unfold parse_period_row
      dsimp only
      rw [hyn]
      dsimp only
      rw [hmn]
    rw [parseRows_cons, hpr]

/-- Witness for C5: a month row before any year row is dropped, a year
row sets the context, and `01월` under context `2024` emits
`(2024-01, 100)`; an unparsable amount cell would surface as `none` and
be coerced to `0`. -/
theorem C5_parser_state_machine_witness :
    parseRows
      [⟨['1', '월'], some 7⟩,
       ⟨['2', '0', '2', '4', '년'], none⟩,
       ⟨['0', '1', '월'], some 100⟩] none =
      [(['2', '0', '2', '4', '-', '0', '1'], (100 : ℚ))] := by
  have hny1 : ¬ ∃ y0, isYearLabel ['1', '월'] y0 := by
    rintro ⟨y0, r, heq, hlen, -⟩
    have hp : pstrip ['1', '월'] = ['1', '월'] := rfl
    rw [hp] at heq
    have hl := congrArg List.length heq
    simp only [List.length_cons, List.length_nil, List.length_append, hlen] at hl
    omega
  have hm1 : isMonthLabel ['1', '월'] ['1'] := by
    refine ⟨[], rfl, Or.inl rfl, ?_⟩
    intro x hx
    simp only [List.mem_cons, List.not_mem_nil, or_false] at hx
    subst hx
    rfl
  have hy2 : isYearLabel ['2', '0', '2', '4', '년'] ['2', '0', '2', '4'] := by
    refine ⟨[], rfl, rfl, ?_⟩
    intro x hx
    simp only [List.mem_cons, List.not_mem_nil, or_false] at hx
    rcases hx with rfl | rfl | rfl | rfl <;> rfl
  have hny3 : ¬ ∃ y0, isYearLabel ['0', '1', '월'] y0 := by
    rintro ⟨y0, r, heq, hlen, -⟩
    have hp : pstrip ['0', '1', '월'] = ['0', '1', '월'] := rfl
    rw [hp] at heq
    have hl := congrArg List.length heq
    simp only [List.length_cons, List.length_nil, List.length_append, hlen] at hl
    omega
  have hm3 : isMonthLabel ['0', '1', '월'] ['0', '1'] := by
    refine ⟨[], rfl, Or.inr rfl, ?_⟩
    intro x hx
    simp only [List.mem_cons, List.not_mem_nil, or_false] at hx
    rcases hx with rfl | rfl <;> rfl
  rw [(C5_parser_state_machine ⟨['1', '월'], some 7⟩
        [⟨['2', '0', '2', '4', '년'], none⟩, ⟨['0', '1', '월'], some 100⟩]
        none).2.2.2.1 ['1'] hny1 hm1 rfl]
  rw [(C5_parser_state_machine ⟨['2', '0', '2', '4', '년'], none⟩
        [⟨['0', '1', '월'], some 100⟩] none).2.1 ['2', '0', '2', '4'] hy2]
  rw [(C5_parser_state_machine ⟨['0', '1', '월'], some 100⟩ []
        (some ['2', '0', '2', '4'])).2.2.1 ['0', '1'] ['2', '0', '2', '4'] hny3 hm3 rfl]
  rfl

/-! ## Aggregator (`src/domain/calculations/transformations.py` lines
127-189)

Tables are modelled as typed row lists `(date, export_amount)` — the two
columns the pipeline feeds these functions — so the source's dynamic
missing-column checks (which raise `ValueError`) are vacuous here and the
`value_column` parameter is fixed at its only call-site value
`export_amount`.  The pandas index is positional in a list.  -/

/-- `aggregate_by_date`: pandas `groupby('date', as_index=False).sum()` —
one output row per distinct date with the group's sum, the groups sorted
ascending by key (pandas `groupby` sorts), index reset.  Empty input is
returned unchanged. -/
def aggregate_by_date (rows : List (List Char × ℚ)) : List (List Char × ℚ) :=
  if rows = [] then rows
  else
    (List.insertionSort (fun a b : List Char => a ≤ b) (rows.map Prod.fst).dedup).map
      fun d => (d, ((rows.filter fun r => r.1 = d).map Prod.snd).sum)

/-- `sort_by_date`: pandas `sort_values('date').reset_index(drop=True)`.
(The claims about it only concern key order, never the relative order of
equal keys, so the stable `insertionSort` stands in for pandas'
quicksort.)  Empty input is returned unchanged. -/
def sort_by_date (rows : List (List Char × ℚ)) : List (List Char × ℚ) :=
  if rows = [] then rows
  else List.insertionSort (fun a b : List Char × ℚ => a.1 ≤ b.1) rows

instance : IsTotal (List Char × ℚ) (fun a b => a.1 ≤ b.1) :=
  ⟨fun a b => le_total a.1 b.1⟩

instance : IsTrans (List Char × ℚ) (fun a b => a.1 ≤ b.1) :=
  ⟨fun _ _ _ h1 h2 => le_trans h1 h2⟩

lemma aggregate_by_date_of_ne_nil (rows : List (List Char × ℚ)) (h : rows ≠ []) :
    aggregate_by_date rows =
      (List.insertionSort (fun a b : List Char => a ≤ b) (rows.map Prod.fst).dedup).map
        (fun d => (d, ((rows.filter fun r => r.1 = d).map Prod.snd).sum)) := by
  unfold aggregate_by_date
  rw [if_neg h]

/-- Auxiliary: mapping each date of a fst-unique row list to its group
sum reproduces the row list itself. -/
lemma map_group_sum_self :
    ∀ rows : List (List Char × ℚ), (rows.map Prod.fst).Nodup →
      (rows.map Prod.fst).map
          (fun d => (d, ((rows.filter fun r => r.1 = d).map Prod.snd).sum)) = rows := by
  intro rows
  induction rows with
  | nil => intro h; rfl
  | cons p rest ih =>
      intro hnd
      simp only [List.map_cons, List.nodup_cons, List.mem_map] at hnd
      obtain ⟨hp, hrest⟩ := hnd
      have hfilter_head : (p :: rest).filter (fun r => r.1 = p.1) = [p] := by
        rw [List.filter_cons]
        simp only [decide_eq_true_eq, if_true]
        congr 1
        rw [List.filter_eq_nil_iff]
        intro a ha hq
        simp only [decide_eq_true_eq] at hq
        exact hp ⟨a, ha, hq⟩
      have htail : (rest.map Prod.fst).map
          (fun d => (d, (((p :: rest).filter fun r => r.1 = d).map Prod.snd).sum)) =
          (rest.map Prod.fst).map
          (fun d => (d, ((rest.filter fun r => r.1 = d).map Prod.snd).sum)) := by
        apply List.map_congr_left
        intro d hd
        have hdp : ¬ (p.1 = d) := by
          obtain ⟨a, ha, rfl⟩ := List.mem_map.mp hd
          intro he
          exact hp ⟨a, ha, he.symm⟩
        rw [List.filter_cons]
        simp only [decide_eq_true_eq]
        rw [if_neg hdp]
      simp only [List.map_cons]
      rw [hfilter_head]
      simp only [List.map_cons, List.map_nil, List.sum_cons, List.sum_nil, add_zero]
      rw [htail, ih hrest]

/-- Dates of the aggregate output: the sorted dedup of the input dates. -/
lemma aggregate_by_date_fst (rows : List (List Char × ℚ)) (h : rows ≠ []) :
    (aggregate_by_date rows).map Prod.fst =
      List.insertionSort (fun a b : List Char => a ≤ b) (rows.map Prod.fst).dedup := by
  rw [aggregate_by_date_of_ne_nil rows h, List.map_map]
  exact List.map_id _

/-! ## C6 -/

/-- **C6**: the Aggregator's output has distinct dates sorted ascending,
contains exactly the input's dates, and carries each date's group sum;
empty input passes through as an empty table and `sort_by_date` also
sorts and passes empty input through.  The claim's idempotence clause
holds as amended: aggregating a table that has at most one row per date
*and is sorted ascending by date* returns the identical table (without
sortedness it fails — see the counterexample). -/
theorem C6_aggregator (rows : List (List Char × ℚ)) :
    ((aggregate_by_date rows).map Prod.fst).Pairwise (· ≤ ·) ∧
    ((aggregate_by_date rows).map Prod.fst).Nodup ∧
    (∀ d : List Char, d ∈ (aggregate_by_date rows).map Prod.fst ↔ d ∈ rows.map Prod.fst) ∧
    (∀ p ∈ aggregate_by_date rows,
      p.2 = ((rows.filter fun r => r.1 = p.1).map Prod.snd).sum) ∧
    (List.Pairwise (fun a b : List Char × ℚ => a.1 ≤ b.1) rows →
      (rows.map Prod.fst).Nodup → aggregate_by_date rows = rows) ∧
    aggregate_by_date ([] : List (List Char × ℚ)) = [] ∧
    sort_by_date ([] : List (List Char × ℚ)) = [] ∧
    ((sort_by_date rows).map Prod.fst).Pairwise (· ≤ ·) := by
  by_cases hnil : rows = []
  · subst hnil
    refine ⟨by simp [aggregate_by_date], by simp [aggregate_by_date],
      by simp [aggregate_by_date], by simp [aggregate_by_date],
      fun _ _ => rfl, rfl, rfl, by simp [sort_by_date]⟩
  · refine ⟨?_, ?_, ?_, ?_, ?_, rfl, rfl, ?_⟩
    · rw [aggregate_by_date_fst rows hnil]
      exact List.sorted_insertionSort _ _
    · rw [aggregate_by_date_fst rows hnil]
      exact ((List.perm_insertionSort _ _).nodup_iff).mpr (List.nodup_dedup _)
    · intro d
      rw [aggregate_by_date_fst rows hnil,
        (List.perm_insertionSort (fun a b : List Char => a ≤ b)
          (rows.map Prod.fst).dedup).mem_iff, List.mem_dedup]
    · intro p hp
      rw [aggregate_by_date_of_ne_nil rows hnil] at hp
      obtain ⟨d, hd, rfl⟩ := List.mem_map.mp hp
      rfl
    · intro hsorted hnodup
      rw [aggregate_by_date_of_ne_nil rows hnil]
      have h1 : (rows.map Prod.fst).dedup = rows.map Prod.fst :=
        List.dedup_eq_self.mpr hnodup
      have h2 : List.insertionSort (fun a b : List Char => a ≤ b) (rows.map Prod.fst) =
          rows.map Prod.fst :=
        List.Sorted.insertionSort_eq
          (List.Pairwise.map Prod.fst (fun a b h => h) hsorted)
      rw [h1, h2]
      exact map_group_sum_self rows hnodup
    · unfold sort_by_date
      rw [if_neg hnil]
      exact List.Pairwise.map Prod.fst (fun a b h => h)
        (List.sorted_insertionSort _ rows)

/-- Counterexample for C6 as frozen: a table with unique dates but not
yet sorted (pandas keeps input order; `2024-02` precedes `2024-01`).
Aggregating it returns the *sorted* table — not an identical one — so
"aggregating a table that already has at most one row per date returns
an identical table" is false without a sortedness premise. -/
theorem C6_aggregator_counterexample :
    (([(['2','0','2','4','-','0','2'], (1 : ℚ)),
       (['2','0','2','4','-','0','1'], (2 : ℚ))].map Prod.fst).Nodup) ∧
    aggregate_by_date
        [(['2','0','2','4','-','0','2'], (1 : ℚ)),
         (['2','0','2','4','-','0','1'], (2 : ℚ))] =
      [(['2','0','2','4','-','0','1'], (2 : ℚ)),
       (['2','0','2','4','-','0','2'], (1 : ℚ))] ∧
    aggregate_by_date
        [(['2','0','2','4','-','0','2'], (1 : ℚ)),
         (['2','0','2','4','-','0','1'], (2 : ℚ))] ≠
      [(['2','0','2','4','-','0','2'], (1 : ℚ)),
       (['2','0','2','4','-','0','1'], (2 : ℚ))] := by
  refine ⟨by decide, ?_, ?_⟩ <;> with_unfolding_all decide

/-- Witness for C6: on a sorted unique-date table the amended idempotence
clause applies and returns the identical table. -/
theorem C6_aggregator_witness :
    aggregate_by_date
        [(['2','0','2','4','-','0','1'], (2 : ℚ)),
         (['2','0','2','4','-','0','2'], (1 : ℚ))] =
      [(['2','0','2','4','-','0','1'], (2 : ℚ)),
       (['2','0','2','4','-','0','2'], (1 : ℚ))] :=
  (C6_aggregator _).2.2.2.2.1 (by decide) (by decide)

/-! ## pandas NaN/inf values

The derived percentage columns of the quarterly roll-up and the dashboard
enricher are computed with numpy float arithmetic, where division of a
nonzero value by zero yields `±inf` (with a warning, not an exception)
and `0/0` yields `NaN`; pandas renders a missing comparison as `NaN`.
`PVal` carries these cases over exact rationals. -/

inductive PVal where
  | num (q : ℚ)
  | inf
  | ninf
  | nan
  deriving DecidableEq, Repr

/-- numpy `(curr - prev) / prev` on exact column values: the pandas
`pct_change` body and the merge-based YoY expressions. -/
def pctChange (curr prev : ℚ) : PVal :=
  if prev = 0 then
    if curr = 0 then .nan
    else if 0 < curr then .inf
    else .ninf
  else .num ((curr - prev) / prev)

/-- `* 100` on a pandas cell. -/
def pmul100 : PVal → PVal
  | .num q => .num (q * 100)
  | .inf => .inf
  | .ninf => .ninf
  | .nan => .nan

/-- pandas `.round(2)` on a cell (`NaN`/`±inf` pass through). -/
def pround2 : PVal → PVal
  | .num q => .num (pyRound2 q)
  | .inf => .inf
  | .ninf => .ninf
  | .nan => .nan

/-- pandas `.round(0)` on a cell (`NaN`/`±inf` pass through). -/
def pround0 : PVal → PVal
  | .num q => .num (pyRound0 q)
  | .inf => .inf
  | .ninf => .ninf
  | .nan => .nan

/-! ## Quarterly roll-up (`src/domain/services/data_processor.py`,
`DataProcessor.process_quarterly`, lines 90-156) -/

/-- `to_datetime(date + '-01').dt.to_period('Q').astype(str)` on a valid
`YYYY-MM` date: the ISO quarter label `YYYYQn` with
`n = (month - 1) / 3 + 1` (pandas renders the period year without
padding, `intToChars`). -/
def quarterOfDate (d : List Char) : List Char :=
  let y := digitsToNat (splitFirstDash d).1
  let m := digitsToNat (splitFirstDash d).2
  intToChars (y : ℤ) ++ 'Q' :: [Char.ofNat ('0'.toNat + ((m - 1) / 3 + 1))]

/-- `pd.PeriodIndex(quarter, freq='Q')`: the (year, quarter) ordinal
behind a quarter label. -/
def quarterPeriod (s : List Char) : ℤ × ℕ :=
  ((digitsToNat (s.takeWhile (fun c => c ≠ 'Q')) : ℤ),
   digitsToNat ((s.dropWhile (fun c => c ≠ 'Q')).drop 1))

/-- One row of the quarterly output table. -/
structure QuarterlyRow where
  quarter : List Char
  export_amount : ℚ
  export_qoq : PVal
  export_yoy : PVal
  deriving DecidableEq, Repr

/-- The output columns of `process_quarterly`. -/
def quarterly_columns : List String :=
  ["quarter", "export_amount", "export_qoq", "export_yoy"]

/-- The grouped-and-sorted quarter sums of `process_quarterly` (lines
128-132): `groupby('quarter')['export_amount'].sum().reset_index()` then
`sort_values('quarter')` — one `(label, sum)` per distinct quarter label,
sorted ascending (string order; labels of 4-digit years sort
chronologically). -/
def quarterSums (monthly : List (List Char × ℚ)) : List (List Char × ℚ) :=
  (List.insertionSort (fun a b : List Char => a ≤ b)
      ((monthly.map fun r => quarterOfDate r.1).dedup)).map
    fun qt => (qt, ((monthly.filter fun r => quarterOfDate r.1 = qt).map Prod.snd).sum)

/-- `DataProcessor.process_quarterly`: empty input yields the empty typed
table; otherwise QoQ is `pct_change(periods=1) * 100` (positional lag-1
over the sorted quarters, first row `NaN`) and YoY joins each quarter to
the one 4 quarter-steps earlier (`period + 4` self-merge, `NaN` when
unmatched); both are rounded to 2 decimals at the end (lines 153-154). -/
def process_quarterly (monthly : List (List Char × ℚ)) :
    List String × List QuarterlyRow :=
  if monthly = [] then (quarterly_columns, [])
  else
    let sums := quarterSums monthly
    (quarterly_columns,
      sums.mapIdx fun j p =>
        { quarter := p.1
          export_amount := p.2
          export_qoq :=
            if j = 0 then .nan
            else
              match sums[j - 1]? with
              | some prev => pround2 (pmul100 (pctChange p.2 prev.2))
              | none => .nan
          export_yoy :=
            match sums.find? (fun pr =>
                quarterPeriod pr.1 =
                  ((quarterPeriod p.1).1 - 1, (quarterPeriod p.1).2)) with
            | some prev => pround2 (pmul100 (pctChange p.2 prev.2))
            | none => .nan })

/-! ## Table-to-records conversion
(`src/domain/calculations/transformations.py` lines 13-97 and the
pydantic validation of `src/domain/models.py`) -/

/-- The pydantic pattern `^\d{4}-\d{2}$` of `TradeRecord.date`. -/
def matchesYYYYMM : List Char → Bool
  | [y1, y2, y3, y4, dash, m1, m2] =>
      y1.isDigit && y2.isDigit && y3.isDigit && y4.isDigit &&
        (dash == '-') && m1.isDigit && m2.isDigit
  | _ => false

/-- An input table as `dataframe_to_trade_records` sees it: the column
names, plus for each row the `date` cell (as `str(...)` renders it) and
the `export_amount` cell (`some q` when `float(...)` succeeds with the
finite value `q`, `none` when it raises).  The cells are only touched
after the column check passes. -/
structure Frame where
  cols : List String
  rows : List (List Char × Option ℚ)

/-- `TradeRecord(date=..., export_amount=...)` (`models.py` lines 13-24):
pydantic validates the date against `^\d{4}-\d{2}$` and the amount
against `ge=0`; a `float(...)` failure is caught by the same
`try`/`except` and re-raised as `ValueError`. -/
def mkTradeRecord (d : List Char) (a : Option ℚ) : Except String TradeRecord :=
  match a with
  | none => .error ("Invalid data at row: amount not convertible")
  | some q =>
      if matchesYYYYMM d = true ∧ 0 ≤ q then .ok ⟨d, q⟩
      else .error ("Invalid data at row: validation failed")

/-- The row loop of `dataframe_to_trade_records`: the first failing row
aborts the whole conversion (the `except` re-raises immediately). -/
def rowsToRecords : List (List Char × Option ℚ) → Except String (List TradeRecord)
  | [] => .ok []
  | r :: rest =>
      match mkTradeRecord r.1 r.2 with
      | .error e => .error e
      | .ok t =>
          match rowsToRecords rest with
          | .error e => .error e
          | .ok ts => .ok (t :: ts)

/-- `dataframe_to_trade_records` (lines 13-60): empty table short-circuits
to `[]`; a non-empty table missing a required column raises; otherwise
rows are converted in order, aborting on the first invalid one. -/
def dataframe_to_trade_records (f : Frame) : Except String (List TradeRecord) :=
  if f.rows = [] then .ok []
  else if "date" ∈ f.cols ∧ "export_amount" ∈ f.cols then rowsToRecords f.rows
  else .error ("Missing required columns")

/-- The output columns of the monthly pipeline
(`analysis_results_to_dataframe`, lines 63-97, fixes this order). -/
def monthly_columns : List String :=
  ["date", "export_amount", "export_mom", "export_yoy"]

/-- `analysis_results_to_dataframe`: in the typed embedding both the
empty and non-empty branches are the typed rows under the fixed column
order. -/
def analysis_results_to_dataframe (results : List AnalysisResult) :
    List String × List AnalysisResult :=
  (monthly_columns, results)

/-! ## Pipeline entry point (`src/domain/calculations/pipeline.py`) -/

/-- `parse_and_aggregate_dataframe` (lines 50-105): empty frame or no
parsed rows yield the empty 2-column frame, otherwise the parsed rows
are aggregated and sorted. -/
def parse_and_aggregate_dataframe (df : List RawRow) :
    List String × List (List Char × ℚ) :=
  if df = [] then (["date", "export_amount"], [])
  else
    let processed := parseRows df none
    if processed = [] then (["date", "export_amount"], [])
    else (["date", "export_amount"], sort_by_date (aggregate_by_date processed))

/-- `process_trade_data` (lines 108-142): parse and aggregate, then — for
a non-empty parse — convert to `TradeRecord`s (re-reading the two typed
columns always re-parses cleanly, hence `some`), compute MoM/YoY and
return the 4-column frame.  `dataframe_to_trade_records` may raise (e.g.
a negative aggregated amount), which propagates. -/
def process_trade_data (df : List RawRow) :
    Except String (List String × List AnalysisResult) :=
  let parsed := parse_and_aggregate_dataframe df
  if parsed.2 = [] then .ok (monthly_columns, [])
  else
    match dataframe_to_trade_records ⟨parsed.1, parsed.2.map fun r => (r.1, some r.2)⟩ with
    | .error e => .error e
    | .ok records => .ok (analysis_results_to_dataframe (calculate_mom_and_yoy records))

/-! ## C8 -/

/-- **C8**: each pipeline stage maps empty input to an empty output with
the correct columns and does not raise: the monthly pipeline yields the
empty `date, export_amount, export_mom, export_yoy` table (as a `.ok`
value — no exception), the parse-and-aggregate stage yields the empty
2-column table, and the quarterly roll-up yields the empty
`quarter, export_amount, export_qoq, export_yoy` table. -/
theorem C8_empty_input_contract :
    process_trade_data [] = .ok (monthly_columns, []) ∧
    monthly_columns = ["date", "export_amount", "export_mom", "export_yoy"] ∧
    parse_and_aggregate_dataframe [] = (["date", "export_amount"], []) ∧
    process_quarterly [] = (quarterly_columns, []) ∧
    quarterly_columns = ["quarter", "export_amount", "export_qoq", "export_yoy"] := by
  refine ⟨rfl, rfl, rfl, rfl, rfl⟩

/-! ## C9 -/

lemma rowsToRecords_cons (r : List Char × Option ℚ) (rest : List (List Char × Option ℚ)) :
    rowsToRecords (r :: rest) =
      match mkTradeRecord r.1 r.2 with
      | .error e => .error e
      | .ok t =>
          match rowsToRecords rest with
          | .error e => .error e
          | .ok ts => .ok (t :: ts) := rfl

lemma rowsToRecords_ok_length :
    ∀ (rows : List (List Char × Option ℚ)) (ts : List TradeRecord),
      rowsToRecords rows = .ok ts → ts.length = rows.length := by
  intro rows
  induction rows with
  | nil =>
      intro ts h
      simp only [rowsToRecords, Except.ok.injEq] at h
      subst h
      rfl
  | cons r rest ih =>
      intro ts h
      rw [rowsToRecords_cons] at h
      cases hmk : mkTradeRecord r.1 r.2 with
      | error e => rw [hmk] at h; simp at h
      | ok t =>
          rw [hmk] at h
          cases hrec : rowsToRecords rest with
          | error e => rw [hrec] at h; simp at h
          | ok ts2 =>
              rw [hrec] at h
              simp only [Except.ok.injEq] at h
              subst h
              simp only [List.length_cons, ih ts2 hrec]

lemma rowsToRecords_error_of_bad :
    ∀ (rows : List (List Char × Option ℚ)) (d : List Char) (a : Option ℚ),
      (d, a) ∈ rows → (∃ e0, mkTradeRecord d a = .error e0) →
      ∃ e, rowsToRecords rows = .error e := by
  intro rows
  induction rows with
  | nil => intro d a hmem; simp at hmem
  | cons r rest ih =>
      intro d a hmem hbad
      rw [rowsToRecords_cons]
      rcases List.mem_cons.mp hmem with heq | hmem2
      · subst heq
        obtain ⟨e0, he0⟩ := hbad
        refine ⟨e0, ?_⟩
        rw [show mkTradeRecord (d, a).1 (d, a).2 = mkTradeRecord d a from rfl, he0]
      · cases hmk : mkTradeRecord r.1 r.2 with
        | error e => exact ⟨e, rfl⟩
        | ok t =>
            obtain ⟨e, he⟩ := ih d a hmem2 hbad
            rw [he]
            exact ⟨e, rfl⟩

lemma mkTradeRecord_bad (d : List Char) (a : Option ℚ)
    (h : a = none ∨ ∃ q, a = some q ∧ (matchesYYYYMM d = false ∨ q < 0)) :
    ∃ e, mkTradeRecord d a = .error e := by
  rcases h with rfl | ⟨q, rfl, hbad⟩
  · exact ⟨_, rfl⟩
  · refine ⟨"Invalid data at row: validation failed", ?_⟩
    unfold mkTradeRecord
    dsimp only
    rw [if_neg]
    rintro ⟨hm, hge⟩
    rcases hbad with hb | hb
    · rw [hm] at hb
      simp at hb
    · exact absurd hge (not_le.mpr hb)

/-- **C9**: converting a table to typed records fails fast, never
silently and never partially: an empty table yields `[]`; a non-empty
table without the required `date`/`export_amount` columns raises; a row
whose date does not match `YYYY-MM`, whose amount is negative, or whose
amount cell cannot be converted aborts the whole conversion with an
error; and any successful conversion covers every input row. -/
theorem C9_conversion_fail_fast (f : Frame) :
    (f.rows = [] → dataframe_to_trade_records f = .ok []) ∧
    (f.rows ≠ [] → ¬ ("date" ∈ f.cols ∧ "export_amount" ∈ f.cols) →
      dataframe_to_trade_records f = .error ("Missing required columns")) ∧
    (∀ d a, (d, a) ∈ f.rows →
      (a = none ∨ ∃ q, a = some q ∧ (matchesYYYYMM d = false ∨ q < 0)) →
      ∃ e, dataframe_to_trade_records f = .error e) ∧
    (∀ records, dataframe_to_trade_records f = .ok records →
      records.length = f.rows.length) := by
  refine ⟨?_, ?_, ?_, ?_⟩
  · intro h
    unfold dataframe_to_trade_records
    rw [if_pos h]
  · intro hne hcols
    unfold dataframe_to_trade_records
    rw [if_neg hne, if_neg hcols]
  · intro d a hmem hbad
    have hne : f.rows ≠ [] := List.ne_nil_of_mem hmem
    unfold dataframe_to_trade_records
    rw [if_neg hne]
    by_cases hcols : "date" ∈ f.cols ∧ "export_amount" ∈ f.cols
    · rw [if_pos hcols]
      exact rowsToRecords_error_of_bad f.rows d a hmem (mkTradeRecord_bad d a hbad)
    · rw [if_neg hcols]
      exact ⟨_, rfl⟩
  · intro records h
    unfold dataframe_to_trade_records at h
    by_cases hne : f.rows = []
    · rw [if_pos hne] at h
      simp only [Except.ok.injEq] at h
      subst h
      rw [hne]
      rfl
    · rw [if_neg hne] at h
      by_cases hcols : "date" ∈ f.cols ∧ "export_amount" ∈ f.cols
      · rw [if_pos hcols] at h
        exact rowsToRecords_ok_length f.rows records h
      · rw [if_neg hcols] at h
        simp at h

/-- Witness for C9: the empty table converts to `[]`; a table missing
the required columns errors; a malformed date aborts with an error; a
well-formed table converts completely. -/
theorem C9_conversion_fail_fast_witness :
    dataframe_to_trade_records ⟨["date", "export_amount"], []⟩ = .ok [] ∧
    dataframe_to_trade_records
        ⟨["period", "value"], [(['2','0','2','4','-','0','1'], some 1)]⟩ =
      .error ("Missing required columns") ∧
    (∃ e, dataframe_to_trade_records
        ⟨["date", "export_amount"], [(['b','a','d'], some 1)]⟩ = .error e) := by
  refine ⟨(C9_conversion_fail_fast _).1 rfl,
    (C9_conversion_fail_fast _).2.1 (by simp) (by simp),
    (C9_conversion_fail_fast _).2.2.1 ['b','a','d'] (some 1) (by simp)
      (Or.inr ⟨1, rfl, Or.inl (by decide)⟩)⟩

/-! ## C4 -/

/-- Projection of a `QuarterlyRow` to its `(label, sum)` entry. -/
def projQ (r : QuarterlyRow) : List Char × ℚ := (r.quarter, r.export_amount)

lemma process_quarterly_rows (monthly : List (List Char × ℚ)) (h : monthly ≠ []) :
    (process_quarterly monthly).2 =
      (quarterSums monthly).mapIdx fun j p =>
        { quarter := p.1
          export_amount := p.2
          export_qoq :=
            if j = 0 then .nan
            else
              match (quarterSums monthly)[j - 1]? with
              | some prev => pround2 (pmul100 (pctChange p.2 prev.2))
              | none => .nan
          export_yoy :=
            match (quarterSums monthly).find? (fun pr =>
                quarterPeriod pr.1 =
                  ((quarterPeriod p.1).1 - 1, (quarterPeriod p.1).2)) with
            | some prev => pround2 (pmul100 (pctChange p.2 prev.2))
            | none => .nan } := by
  unfold process_quarterly
  rw [if_neg h]

lemma process_quarterly_map_proj (monthly : List (List Char × ℚ)) (h : monthly ≠ []) :
    ((process_quarterly monthly).2).map projQ = quarterSums monthly := by
  rw [process_quarterly_rows monthly h, List.mapIdx_eq_ofFn, List.map_ofFn]
  conv_rhs => rw [← List.ofFn_get (quarterSums monthly)]
  rfl

lemma length_process_quarterly (monthly : List (List Char × ℚ)) (h : monthly ≠ []) :
    (process_quarterly monthly).2.length = (quarterSums monthly).length := by
  rw [process_quarterly_rows monthly h, List.length_mapIdx]

lemma quarterSums_fst (monthly : List (List Char × ℚ)) :
    (quarterSums monthly).map Prod.fst =
      List.insertionSort (fun a b : List Char => a ≤ b)
        ((monthly.map fun r => quarterOfDate r.1).dedup) := by
  unfold quarterSums
  rw [List.map_map]
  exact List.map_id _

/-- The lookup over the output rows agrees with the lookup over the
grouped sums. -/
lemma process_quarterly_find (monthly : List (List Char × ℚ)) (h : monthly ≠ [])
    (key : ℤ × ℕ) :
    (((process_quarterly monthly).2.find? fun r =>
        quarterPeriod r.quarter = key).map projQ) =
      (quarterSums monthly).find? (fun pr => quarterPeriod pr.1 = key) := by
  have e₁ : (((process_quarterly monthly).2.map projQ).find?
        (fun p => quarterPeriod p.1 = key)) =
      (((process_quarterly monthly).2.find? fun r =>
        quarterPeriod r.quarter = key).map projQ) := by
    rw [List.find?_map]
    rfl
  rw [← e₁, process_quarterly_map_proj monthly h]

/-- The spec's quarterly example: `2023-01..03 = 100` each,
`2023-04..06 = 200` each, `2024-01..03 = 150` each. -/
def exC4 : List (List Char × ℚ) :=
  [(['2','0','2','3','-','0','1'], 100), (['2','0','2','3','-','0','2'], 100),
   (['2','0','2','3','-','0','3'], 100), (['2','0','2','3','-','0','4'], 200),
   (['2','0','2','3','-','0','5'], 200), (['2','0','2','3','-','0','6'], 200),
   (['2','0','2','4','-','0','1'], 150), (['2','0','2','4','-','0','2'], 150),
   (['2','0','2','4','-','0','3'], 150)]

set_option maxRecDepth 16000 in
/-- **C4**: the quarterly roll-up maps each month to its ISO quarter
label, sums amounts per quarter (one output row per distinct quarter,
exactly the input's quarters), sorts quarters ascending by label (for
4-digit years this is chronological order), computes QoQ positionally
(lag-1 over the output, first row `NaN`) and YoY by period arithmetic
(each quarter joined to the quarter whose period is 4 quarter-steps —
one year — earlier, `NaN` when absent); on the example series
`2023Q1.amount = 300`, `2023Q2.amount = 600`, `2023Q2.qoq = 100.0`,
`2024Q1.yoy = 50.0`. -/
theorem C4_quarterly_rollup (monthly : List (List Char × ℚ)) (h : monthly ≠ []) :
    ((process_quarterly monthly).2.map (fun r => r.quarter)).Pairwise (· ≤ ·) ∧
    ((process_quarterly monthly).2.map (fun r => r.quarter)).Nodup ∧
    (∀ qt, qt ∈ (process_quarterly monthly).2.map (fun r => r.quarter) ↔
      qt ∈ monthly.map (fun r => quarterOfDate r.1)) ∧
    (∀ r ∈ (process_quarterly monthly).2,
      r.export_amount =
        ((monthly.filter fun p => quarterOfDate p.1 = r.quarter).map Prod.snd).sum) ∧
    (∀ j, ∀ hj : j < (process_quarterly monthly).2.length,
      ((process_quarterly monthly).2[j].export_qoq =
        if j = 0 then PVal.nan
        else pround2 (pmul100 (pctChange (process_quarterly monthly).2[j].export_amount
          (process_quarterly monthly).2[j - 1].export_amount))) ∧
      ((process_quarterly monthly).2[j].export_yoy =
        match (process_quarterly monthly).2.find? (fun r =>
            quarterPeriod r.quarter =
              ((quarterPeriod (process_quarterly monthly).2[j].quarter).1 - 1,
               (quarterPeriod (process_quarterly monthly).2[j].quarter).2)) with
        | some prev =>
            pround2 (pmul100 (pctChange (process_quarterly monthly).2[j].export_amount
              prev.export_amount))
        | none => PVal.nan)) ∧
    process_quarterly exC4 =
      (quarterly_columns,
       [⟨['2','0','2','3','Q','1'], 300, .nan, .nan⟩,
        ⟨['2','0','2','3','Q','2'], 600, .num 100, .nan⟩,
        ⟨['2','0','2','4','Q','1'], 450, .num (-25), .num 50⟩]) := by
  have hq : (process_quarterly monthly).2.map (fun r => r.quarter) =
      (quarterSums monthly).map Prod.fst := by
    rw [← process_quarterly_map_proj monthly h, List.map_map]
    rfl
  have hfields : ∀ (k : ℕ) (hk : k < (process_quarterly monthly).2.length)
      (hk2 : k < (quarterSums monthly).length),
      (process_quarterly monthly).2[k].quarter = (quarterSums monthly)[k].1 ∧
      (process_quarterly monthly).2[k].export_amount = (quarterSums monthly)[k].2 ∧
      (process_quarterly monthly).2[k].export_qoq =
        (if k = 0 then PVal.nan
         else match (quarterSums monthly)[k - 1]? with
           | some prev =>
               pround2 (pmul100 (pctChange (quarterSums monthly)[k].2 prev.2))
           | none => PVal.nan) ∧
      (process_quarterly monthly).2[k].export_yoy =
        (match (quarterSums monthly).find? (fun pr =>
            quarterPeriod pr.1 = ((quarterPeriod (quarterSums monthly)[k].1).1 - 1,
              (quarterPeriod (quarterSums monthly)[k].1).2)) with
         | some prev =>
             pround2 (pmul100 (pctChange (quarterSums monthly)[k].2 prev.2))
         | none => PVal.nan) := by
    intro k hk hk2
    refine ⟨?_, ?_, ?_, ?_⟩
    all_goals simp only [process_quarterly_rows monthly h, List.getElem_mapIdx]
  refine ⟨?_, ?_, ?_, ?_, ?_, ?_⟩
  · rw [hq, quarterSums_fst]
    exact List.sorted_insertionSort _ _
  · rw [hq, quarterSums_fst]
    exact ((List.perm_insertionSort _ _).nodup_iff).mpr (List.nodup_dedup _)
  · intro qt
    rw [hq, quarterSums_fst,
      (List.perm_insertionSort (fun a b : List Char => a ≤ b) _).mem_iff, List.mem_dedup]
  · intro r hr
    have hmem : projQ r ∈ quarterSums monthly := by
      rw [← process_quarterly_map_proj monthly h]
      exact List.mem_map_of_mem projQ hr
    unfold quarterSums at hmem
    obtain ⟨label, hlabel, heq⟩ := List.mem_map.mp hmem
    have h1 : label = r.quarter := congrArg Prod.fst heq
    have h2 : ((monthly.filter fun p => quarterOfDate p.1 = label).map Prod.snd).sum =
        r.export_amount := congrArg Prod.snd heq
    rw [← h2, ← h1]
  · intro j hj
    have hs : j < (quarterSums monthly).length := by
      rw [← length_process_quarterly monthly h]
      exact hj
    constructor
    · rw [(hfields j hj hs).2.2.1]
      by_cases h0 : j = 0
      · simp [h0]
      · have hs1 : j - 1 < (quarterSums monthly).length := by omega
        have hj1 : j - 1 < (process_quarterly monthly).2.length := by omega
        rw [if_neg h0, if_neg h0, List.getElem?_eq_getElem hs1,
          (hfields j hj hs).2.1, (hfields (j - 1) hj1 hs1).2.1]
    · rw [(hfields j hj hs).2.2.2, (hfields j hj hs).1]
      cases hf : (quarterSums monthly).find? (fun pr =>
          quarterPeriod pr.1 = ((quarterPeriod (quarterSums monthly)[j].1).1 - 1,
            (quarterPeriod (quarterSums monthly)[j].1).2)) with
      | none =>
          have hPF := process_quarterly_find monthly h
            ((quarterPeriod (quarterSums monthly)[j].1).1 - 1,
             (quarterPeriod (quarterSums monthly)[j].1).2)
          rw [hf] at hPF
          rw [Option.map_eq_none'] at hPF
          rw [hPF]
      | some pr =>
          have hPF := process_quarterly_find monthly h
            ((quarterPeriod (quarterSums monthly)[j].1).1 - 1,
             (quarterPeriod (quarterSums monthly)[j].1).2)
          rw [hf] at hPF
          obtain ⟨row, hrow, hproj⟩ := Option.map_eq_some'.mp hPF
          rw [hrow]
          dsimp only
          have hamt : row.export_amount = pr.2 := congrArg Prod.snd hproj
          rw [hamt, (hfields j hj hs).2.1]
  · with_unfolding_all decide

/-- Witness for C4: the example series is non-empty and its quarterly
table carries the spec's numbers. -/
theorem C4_quarterly_rollup_witness :
    process_quarterly exC4 =
      (quarterly_columns,
       [⟨['2','0','2','3','Q','1'], 300, .nan, .nan⟩,
        ⟨['2','0','2','3','Q','2'], 600, .num 100, .nan⟩,
        ⟨['2','0','2','4','Q','1'], 450, .num (-25), .num 50⟩]) :=
  (C4_quarterly_rollup exC4 (List.cons_ne_nil _ _)).2.2.2.2.2

/-! ## Business Calendar Enricher
(`src/domain/services/dashboard_generator.py`)

The claims against the enricher concern only the `date` and `daily_avg`
columns of the frame that `_add_business_days_and_daily_avg` produced.
`temp_date = to_datetime(date + '-01')` raises on anything that is not a
valid `YYYY-MM`, so rows carry the parsed `(year, month)` directly;
`daily_avg` itself is a plain number (`round(amount / b_days)` or `0`),
never `NaN`, so it is a `ℚ`.  The derived percentage columns follow
pandas float semantics (`PVal`). -/

/-- A monthly row as `_add_daily_avg_mom` / `_add_quarterly_stats` see
it. -/
structure DRow where
  year : ℕ
  month : ℕ
  daily_avg : ℚ
  deriving DecidableEq, Repr

/-- Output row of `_add_daily_avg_mom`. -/
structure DMRow where
  year : ℕ
  month : ℕ
  daily_avg : ℚ
  daily_avg_mom : PVal
  deriving DecidableEq, Repr

/-- `_add_daily_avg_mom` (lines 129-145):
`daily_avg.pct_change(periods=1) * 100`, rounded to the nearest integer;
the first row has no comparison and is `NaN`. -/
def addDailyAvgMom (rows : List DRow) : List DMRow :=
  rows.mapIdx fun i r =>
    { year := r.year
      month := r.month
      daily_avg := r.daily_avg
      daily_avg_mom :=
        if i = 0 then .nan
        else
          match rows[i - 1]? with
          | some prev => pround0 (pmul100 (pctChange r.daily_avg prev.daily_avg))
          | none => .nan }

/-- `dt.to_period('Q')` on a row's parsed date. -/
def dQuarter (r : DRow) : ℕ × ℕ := (r.year, (r.month - 1) / 3 + 1)

/-- The quarter keys of `groupby('quarter')`, sorted ascending by period
(pandas groupby sorts its keys). -/
def dQuarters (rows : List DRow) : List (ℕ × ℕ) :=
  List.insertionSort (fun a b : ℕ × ℕ => a.1 < b.1 ∨ (a.1 = b.1 ∧ a.2 ≤ b.2))
    ((rows.map dQuarter).dedup)

/-- `quarter_b`: the quarter's sum of `daily_avg` (line 209-210). -/
def quarterB (rows : List DRow) (qt : ℕ × ℕ) : ℚ :=
  ((rows.filter fun r => dQuarter r = qt).map fun r => r.daily_avg).sum

/-- `quarter_c = (quarter_b / 3).round(0)` (line 211). -/
def quarterC (rows : List DRow) (qt : ℕ × ℕ) : ℚ := pyRound0 (quarterB rows qt / 3)

/-- The `quarter_c` column of `quarterly_sums`, by sorted position. -/
def quarterCs (rows : List DRow) : List ℚ := (dQuarters rows).map (quarterC rows)

/-- `quarter_qoq = quarter_c.pct_change(periods=1) * 100`, rounded to
integer (lines 213-214). -/
def quarterQoqs (rows : List DRow) : List PVal :=
  (quarterCs rows).mapIdx fun j c =>
    if j = 0 then .nan
    else
      match (quarterCs rows)[j - 1]? with
      | some prev => pround0 (pmul100 (pctChange c prev))
      | none => .nan

/-- `quarter_yoy = quarter_c.pct_change(periods=4) * 100`, rounded to
integer (lines 216-217). -/
def quarterYoys (rows : List DRow) : List PVal :=
  (quarterCs rows).mapIdx fun j c =>
    if j < 4 then .nan
    else
      match (quarterCs rows)[j - 4]? with
      | some prev => pround0 (pmul100 (pctChange c prev))
      | none => .nan

/-- `enriched[q_mask]['temp_date'].idxmax()`: the index of the first row
attaining the maximal date among the rows of quarter `qt` (pandas
`idxmax` returns the first occurrence of the maximum). -/
def lastIdxInQuarter (rows : List DRow) (qt : ℕ × ℕ) : Option ℕ :=
  ((rows.enum.filter fun p => dQuarter p.2 = qt).foldl
    (fun best cur =>
      match best with
      | none => some cur
      | some b =>
          if b.2.year < cur.2.year ∨ (b.2.year = cur.2.year ∧ b.2.month < cur.2.month)
          then some cur else some b)
    none).map Prod.fst

/-- Output row of `_add_quarterly_stats`: the four quarter columns are
initialised to `None` (lines 219-222) and written only in the gated
branch. -/
structure QDRow where
  year : ℕ
  month : ℕ
  daily_avg : ℚ
  quarter_b : Option ℚ
  quarter_c : Option ℚ
  quarter_d : Option PVal
  quarter_e : Option PVal
  deriving DecidableEq, Repr

/-- `_add_quarterly_stats` (lines 182-240): for each quarter of the data,
the four statistics are written onto the row `idxmax` picks — the
chronologically last month present in the quarter — and only if that
month's number is in {3, 6, 9, 12}; every other row keeps `None`.  The
per-row formulation below writes exactly when the row is its own
quarter's `idxmax` and passes the month gate, which reproduces the
source's loop over `quarterly_sums.iterrows()` (every group key has a
matching row, so its `continue` guard never fires, and distinct quarters
pick distinct rows). -/
def addQuarterlyStats (rows : List DRow) : List QDRow :=
  rows.mapIdx fun i r =>
    if lastIdxInQuarter rows (dQuarter r) = some i ∧ r.month ∈ [3, 6, 9, 12] then
      { year := r.year
        month := r.month
        daily_avg := r.daily_avg
        quarter_b := some (quarterB rows (dQuarter r))
        quarter_c := some (quarterC rows (dQuarter r))
        quarter_d := (quarterQoqs rows)[(dQuarters rows).indexOf (dQuarter r)]?
        quarter_e := (quarterYoys rows)[(dQuarters rows).indexOf (dQuarter r)]? }
    else
      { year := r.year
        month := r.month
        daily_avg := r.daily_avg
        quarter_b := none
        quarter_c := none
        quarter_d := none
        quarter_e := none }

/-! ## C3 -/

lemma dQuarter_mem_dQuarters (rows : List DRow) (i : ℕ) (hi : i < rows.length) :
    dQuarter rows[i] ∈ dQuarters rows := by
  unfold dQuarters
  rw [(List.perm_insertionSort _ _).mem_iff, List.mem_dedup]
  exact List.mem_map_of_mem dQuarter (List.getElem_mem hi)

lemma length_quarterCs (rows : List DRow) :
    (quarterCs rows).length = (dQuarters rows).length := by
  unfold quarterCs
  rw [List.length_map]

lemma length_quarterQoqs (rows : List DRow) :
    (quarterQoqs rows).length = (dQuarters rows).length := by
  unfold quarterQoqs
  rw [List.length_mapIdx, length_quarterCs]

lemma length_quarterYoys (rows : List DRow) :
    (quarterYoys rows).length = (dQuarters rows).length := by
  unfold quarterYoys
  rw [List.length_mapIdx, length_quarterCs]

/-- The example rows of the quarter-completeness gate: only `2024-01`
and `2024-02` present, no `2024-03`. -/
def exC3 : List DRow := [⟨2024, 1, 10⟩, ⟨2024, 2, 20⟩]

set_option maxRecDepth 16000 in
/-- **C3**: in the enricher, each of the four quarterly fields is
populated on a record exactly when that record is the chronologically
last month present in its quarter (the `idxmax` row) *and* its month
number is in {3, 6, 9, 12}; all other records carry the four fields as
`None`, and the remaining columns are passed through unchanged.  In
particular, with only `2024-01` and `2024-02` present (closing month
`2024-03` absent) no record carries any quarterly field. -/
theorem C3_quarterly_display_gate (rows : List DRow) :
    (∀ i, ∀ hi : i < rows.length, ∀ ho : i < (addQuarterlyStats rows).length,
      ((addQuarterlyStats rows)[i].quarter_b ≠ none ↔
        (lastIdxInQuarter rows (dQuarter rows[i]) = some i ∧
          rows[i].month ∈ [3, 6, 9, 12])) ∧
      ((addQuarterlyStats rows)[i].quarter_c ≠ none ↔
        (lastIdxInQuarter rows (dQuarter rows[i]) = some i ∧
          rows[i].month ∈ [3, 6, 9, 12])) ∧
      ((addQuarterlyStats rows)[i].quarter_d ≠ none ↔
        (lastIdxInQuarter rows (dQuarter rows[i]) = some i ∧
          rows[i].month ∈ [3, 6, 9, 12])) ∧
      ((addQuarterlyStats rows)[i].quarter_e ≠ none ↔
        (lastIdxInQuarter rows (dQuarter rows[i]) = some i ∧
          rows[i].month ∈ [3, 6, 9, 12]))) ∧
    ((addQuarterlyStats rows).map (fun r => (r.year, r.month, r.daily_avg)) =
      rows.map (fun r => (r.year, r.month, r.daily_avg))) ∧
    addQuarterlyStats exC3 =
      [⟨2024, 1, 10, none, none, none, none⟩,
       ⟨2024, 2, 20, none, none, none, none⟩] := by
  refine ⟨?_, ?_, ?_⟩
  · intro i hi ho
    have hbody : (addQuarterlyStats rows)[i] =
        (if lastIdxInQuarter rows (dQuarter rows[i]) = some i ∧
            rows[i].month ∈ [3, 6, 9, 12] then
          { year := rows[i].year
            month := rows[i].month
            daily_avg := rows[i].daily_avg
            quarter_b := some (quarterB rows (dQuarter rows[i]))
            quarter_c := some (quarterC rows (dQuarter rows[i]))
            quarter_d := (quarterQoqs rows)[(dQuarters rows).indexOf (dQuarter rows[i])]?
            quarter_e := (quarterYoys rows)[(dQuarters rows).indexOf (dQuarter rows[i])]? }
        else
          { year := rows[i].year
            month := rows[i].month
            daily_avg := rows[i].daily_avg
            quarter_b := none
            quarter_c := none
            quarter_d := none
            quarter_e := none } : QDRow) := by
      simp only [addQuarterlyStats, List.getElem_mapIdx]
    have hidx : (dQuarters rows).indexOf (dQuarter rows[i]) < (dQuarters rows).length := by
      unfold List.indexOf
      apply List.findIdx_lt_length_of_exists
      exact ⟨dQuarter rows[i], dQuarter_mem_dQuarters rows i hi, by simp⟩
    have hd : (quarterQoqs rows)[(dQuarters rows).indexOf (dQuarter rows[i])]? ≠ none := by
      rw [List.getElem?_eq_getElem (by rw [length_quarterQoqs]; exact hidx)]
      simp
    have he : (quarterYoys rows)[(dQuarters rows).indexOf (dQuarter rows[i])]? ≠ none := by
      rw [List.getElem?_eq_getElem (by rw [length_quarterYoys]; exact hidx)]
      simp
    by_cases hgate : lastIdxInQuarter rows (dQuarter rows[i]) = some i ∧
        rows[i].month ∈ [3, 6, 9, 12]
    · rw [hbody, if_pos hgate]
      exact ⟨⟨fun _ => hgate, fun _ => by simp⟩, ⟨fun _ => hgate, fun _ => by simp⟩,
        ⟨fun _ => hgate, fun _ => hd⟩, ⟨fun _ => hgate, fun _ => he⟩⟩
    · rw [hbody, if_neg hgate]
      exact ⟨⟨fun hc => absurd rfl hc, fun hg => absurd hg hgate⟩,
        ⟨fun hc => absurd rfl hc, fun hg => absurd hg hgate⟩,
        ⟨fun hc => absurd rfl hc, fun hg => absurd hg hgate⟩,
        ⟨fun hc => absurd rfl hc, fun hg => absurd hg hgate⟩⟩
  · rw [addQuarterlyStats, List.mapIdx_eq_ofFn, List.map_ofFn]
    conv_rhs => rw [← List.ofFn_get rows, List.map_ofFn]
    congr 1
    funext k
    by_cases hgate : lastIdxInQuarter rows (dQuarter (rows.get k)) = some k.1 ∧
        (rows.get k).month ∈ [3, 6, 9, 12]
    · simp only [Function.comp_apply, if_pos hgate]
    · simp only [Function.comp_apply, if_neg hgate]
  · with_unfolding_all decide

set_option maxRecDepth 16000 in
/-- Witness for C3: the incomplete-quarter example carries no quarterly
fields, and on a complete quarter (`2024-01..03`) the `2024-03` row —
the quarter's last month, month number 3 — does carry them. -/
theorem C3_quarterly_display_gate_witness :
    addQuarterlyStats exC3 =
      [⟨2024, 1, 10, none, none, none, none⟩,
       ⟨2024, 2, 20, none, none, none, none⟩] ∧
    ((addQuarterlyStats [⟨2024, 1, 10⟩, ⟨2024, 2, 20⟩, ⟨2024, 3, 30⟩]).get
      ⟨2, by with_unfolding_all decide⟩).quarter_b ≠ none := by
  constructor
  · exact (C3_quarterly_display_gate exC3).2.2
  · exact ((C3_quarterly_display_gate [⟨2024, 1, 10⟩, ⟨2024, 2, 20⟩, ⟨2024, 3, 30⟩]).1
      2 (by decide) (by with_unfolding_all decide)).1.mpr
      ⟨by with_unfolding_all decide, by decide⟩

/-! ## The remaining enricher sub-steps
(`_add_business_days_and_daily_avg`, lines 70-127, and
`_add_daily_avg_yoy`, lines 147-180, of `dashboard_generator.py`) -/

/-- Python `calendar.isleap`. -/
def isLeapYear (y : ℕ) : Bool := (y % 4 = 0 && y % 100 ≠ 0) || y % 400 = 0

/-- `calendar.monthrange(y, m).1`: the number of days of the month. -/
def daysInMonth (y m : ℕ) : ℕ :=
  if m = 2 then (if isLeapYear y then 29 else 28)
  else if m = 4 ∨ m = 6 ∨ m = 9 ∨ m = 11 then 30
  else 31

/-- Days of the proleptic Gregorian calendar before January 1 of year
`y` (the ordinal of `date(y, 1, 1)` minus one). -/
def daysBeforeYear (y : ℕ) : ℕ :=
  (y - 1) * 365 + (y - 1) / 4 - (y - 1) / 100 + (y - 1) / 400

/-- Days before the first of month `m` within year `y`. -/
def daysBeforeMonth (y m : ℕ) : ℕ :=
  ((List.range (m - 1)).map fun k => daysInMonth y (k + 1)).sum

/-- `date(y, m, d).toordinal()`. -/
def toOrdinal (y m d : ℕ) : ℕ := daysBeforeYear y + daysBeforeMonth y m + d

/-- `date(y, m, d).weekday()`: Monday = 0 .. Sunday = 6
(`date(1, 1, 1)` is a Monday). -/
def pyWeekday (y m d : ℕ) : ℕ := (toOrdinal y m d + 6) % 7

/-- The day loop of `_add_business_days_and_daily_avg` (lines 105-112):
count the days of the month that are neither weekend (`weekday() >= 5`)
nor a holiday.  The holiday calendar (`holidays.KR()` in the source) is
an external capability, taken as an injected predicate on
`(year, month, day)`. -/
def pyBusinessDays (isHoliday : ℕ → ℕ → ℕ → Bool) (y m : ℕ) : ℕ :=
  ((List.range (daysInMonth y m)).map fun d0 => d0 + 1).countP fun d =>
    decide (pyWeekday y m d < 5) && !isHoliday y m d

/-- Input row of the enricher: a monthly record with its parsed date.
(`date_str` of length ≠ 7 gives `b_days = 0` in the source before any
parsing; rows here carry an already-parsed date, and the source's
`try`/`except ValueError` around `date(...)` construction is the
year/month range guard below.) -/
structure BRow where
  year : ℕ
  month : ℕ
  export_amount : ℚ
  deriving DecidableEq, Repr

/-- Output row of `_add_business_days_and_daily_avg`. -/
structure BDRow where
  year : ℕ
  month : ℕ
  export_amount : ℚ
  business_days : ℕ
  daily_avg : ℚ
  deriving DecidableEq, Repr

/-- `_add_business_days_and_daily_avg` (lines 70-127): per month, count
business days (out-of-range dates raise `ValueError` inside the `try`
and leave `b_days = 0`; `date()` accepts years 1..9999 and months
1..12), then `daily_avg = round(amount / b_days)` when `b_days > 0`,
else `0` — the division is guarded, never raising and never producing a
non-null artifact. -/
def addBusinessDaysAndDailyAvg (isHoliday : ℕ → ℕ → ℕ → Bool)
    (rows : List BRow) : List BDRow :=
  rows.map fun r =>
    let b :=
      if 1 ≤ r.year ∧ r.year ≤ 9999 ∧ 1 ≤ r.month ∧ r.month ≤ 12 then
        pyBusinessDays isHoliday r.year r.month
      else 0
    { year := r.year
      month := r.month
      export_amount := r.export_amount
      business_days := b
      daily_avg := if 0 < b then (roundHalfEven (r.export_amount / b) : ℚ) else 0 }

/-- Output row of `_add_daily_avg_yoy`. -/
structure DYRow where
  year : ℕ
  month : ℕ
  daily_avg : ℚ
  daily_avg_yoy : PVal
  deriving DecidableEq, Repr

/-- `_add_daily_avg_yoy` (lines 147-180): a left merge of the frame with
itself shifted forward by `DateOffset(years=1)` — row `(y, m)` matches
the row dated `(y - 1, m)` — then
`(daily_avg - daily_avg_prev) / daily_avg_prev * 100`, rounded to the
nearest integer; an unmatched row has `daily_avg_prev = NaN` and the
whole expression is `NaN`.  The enricher's input is the aggregated
monthly series, which has at most one row per date (the Aggregator's
postcondition), so the left merge keeps row order and at most one match
per row: `find?` picks it. -/
def addDailyAvgYoy (rows : List DRow) : List DYRow :=
  rows.map fun r =>
    { year := r.year
      month := r.month
      daily_avg := r.daily_avg
      daily_avg_yoy :=
        match rows.find? (fun p => p.year + 1 = r.year ∧ p.month = r.month) with
        | some prev => pround0 (pmul100 (pctChange r.daily_avg prev.daily_avg))
        | none => .nan }

/-! ## C7 -/

set_option maxRecDepth 16000 in
/-- Counterexample for C7 as frozen: with daily averages `0` then `5`,
the previous month's daily average is `0`, yet `daily_avg_mom` of the
second row is `+inf` — numpy turns `5/0` into `inf` (a non-null float
cell), not into `NaN`/null.  No exception is raised, but the claim's
"division by zero never produces any non-null numeric value" is false. -/
theorem C7_divzero_counterexample :
    ((addDailyAvgMom [⟨2024, 1, 0⟩, ⟨2024, 2, 5⟩])[1]?).map
        (fun r => r.daily_avg_mom) = some PVal.inf ∧
    PVal.inf ≠ PVal.nan := by
  constructor
  · with_unfolding_all decide
  · decide

/-- **C7 (amended)**: no enricher sub-step raises (all four sub-steps
are embedded as total functions), and in every zero-comparison context —
previous month's daily average for `daily_avg_mom`, matched prior-year
daily average for `daily_avg_yoy`, compared quarter average for the
quarterly QoQ/YoY — a zero comparison value resolves to null (`NaN`)
only when the current value is also zero; when the current value is
nonzero the derived field becomes `±inf` — a non-null float — exactly as
numpy division behaves.  A missing comparison (first row, no prior-year
match, or fewer than 4 preceding quarters) is `NaN`, and the guarded
division of `_add_business_days_and_daily_avg` resolves a month with no
business days to `daily_avg = 0` without dividing. -/
theorem C7_divzero_amended (rows : List DRow) :
    (∀ i, ∀ hi : i < rows.length, ∀ ho : i < (addDailyAvgMom rows).length,
      (i = 0 → (addDailyAvgMom rows)[i].daily_avg_mom = PVal.nan) ∧
      (1 ≤ i → rows[i - 1].daily_avg = 0 →
        (addDailyAvgMom rows)[i].daily_avg_mom =
          (if rows[i].daily_avg = 0 then PVal.nan
           else if 0 < rows[i].daily_avg then PVal.inf
           else PVal.ninf))) ∧
    (∀ j, ∀ hj : j < (quarterQoqs rows).length, ∀ hc : j < (quarterCs rows).length,
      (j = 0 → (quarterQoqs rows)[j] = PVal.nan) ∧
      (1 ≤ j → ∀ hc1 : j - 1 < (quarterCs rows).length,
        (quarterCs rows)[j - 1] = 0 →
        (quarterQoqs rows)[j] =
          (if (quarterCs rows)[j] = 0 then PVal.nan
           else if 0 < (quarterCs rows)[j] then PVal.inf
           else PVal.ninf))) ∧
    (∀ j, ∀ hj : j < (quarterYoys rows).length, ∀ hc : j < (quarterCs rows).length,
      (j < 4 → (quarterYoys rows)[j] = PVal.nan) ∧
      (4 ≤ j → ∀ hc4 : j - 4 < (quarterCs rows).length,
        (quarterCs rows)[j - 4] = 0 →
        (quarterYoys rows)[j] =
          (if (quarterCs rows)[j] = 0 then PVal.nan
           else if 0 < (quarterCs rows)[j] then PVal.inf
           else PVal.ninf))) ∧
    (∀ i, ∀ hi : i < rows.length, ∀ ho : i < (addDailyAvgYoy rows).length,
      (rows.find? (fun p => p.year + 1 = rows[i].year ∧ p.month = rows[i].month) =
          none →
        (addDailyAvgYoy rows)[i].daily_avg_yoy = PVal.nan) ∧
      (∀ prev,
        rows.find? (fun p => p.year + 1 = rows[i].year ∧ p.month = rows[i].month) =
          some prev →
        prev.daily_avg = 0 →
        (addDailyAvgYoy rows)[i].daily_avg_yoy =
          (if rows[i].daily_avg = 0 then PVal.nan
           else if 0 < rows[i].daily_avg then PVal.inf
           else PVal.ninf))) ∧
    (∀ (isHoliday : ℕ → ℕ → ℕ → Bool) (brows : List BRow) (i : ℕ),
      ∀ hi : i < brows.length,
      ∀ ho : i < (addBusinessDaysAndDailyAvg isHoliday brows).length,
      (addBusinessDaysAndDailyAvg isHoliday brows)[i].business_days = 0 →
      (addBusinessDaysAndDailyAvg isHoliday brows)[i].daily_avg = 0) := by
  refine ⟨?_, ?_, ?_, ?_, ?_⟩
  · intro i hi ho
    have hbody : (addDailyAvgMom rows)[i].daily_avg_mom =
        (if i = 0 then PVal.nan
         else
           match rows[i - 1]? with
           | some prev => pround0 (pmul100 (pctChange rows[i].daily_avg prev.daily_avg))
           | none => PVal.nan) := by
      simp only [addDailyAvgMom, List.getElem_mapIdx]
    constructor
    · intro h0
      rw [hbody, if_pos h0]
    · intro h1 hzero
      have hi1 : i - 1 < rows.length := by omega
      rw [hbody, if_neg (by omega), List.getElem?_eq_getElem hi1]
      dsimp only
      rw [hzero]
      unfold pctChange
      rw [if_pos rfl]
      by_cases hz : rows[i].daily_avg = 0
      · rw [if_pos hz]
        rfl
      · rw [if_neg hz]
        by_cases hp : 0 < rows[i].daily_avg
        · rw [if_pos hp]
          rfl
        · rw [if_neg hp]
          rfl
  · intro j hj hc
    have hbody : (quarterQoqs rows)[j] =
        (if j = 0 then PVal.nan
         else
           match (quarterCs rows)[j - 1]? with
           | some prev => pround0 (pmul100 (pctChange (quarterCs rows)[j] prev))
           | none => PVal.nan) := by
      simp only [quarterQoqs, List.getElem_mapIdx]
    constructor
    · intro h0
      rw [hbody, if_pos h0]
    · intro h1 hc1 hzero
      rw [hbody, if_neg (by omega), List.getElem?_eq_getElem hc1]
      dsimp only
      rw [hzero]
      unfold pctChange
      rw [if_pos rfl]
      by_cases hz : (quarterCs rows)[j] = 0
      · rw [if_pos hz]
        rfl
      · rw [if_neg hz]
        by_cases hp : 0 < (quarterCs rows)[j]
        · rw [if_pos hp]
          rfl
        · rw [if_neg hp]
          rfl
  · intro j hj hc
    have hbody : (quarterYoys rows)[j] =
        (if j < 4 then PVal.nan
         else
           match (quarterCs rows)[j - 4]? with
           | some prev => pround0 (pmul100 (pctChange (quarterCs rows)[j] prev))
           | none => PVal.nan) := by
      simp only [quarterYoys, List.getElem_mapIdx]
    constructor
    · intro h0
      rw [hbody, if_pos h0]
    · intro h4 hc4 hzero
      rw [hbody, if_neg (by omega), List.getElem?_eq_getElem hc4]
      dsimp only
      rw [hzero]
      unfold pctChange
      rw [if_pos rfl]
      by_cases hz : (quarterCs rows)[j] = 0
      · rw [if_pos hz]
        rfl
      · rw [if_neg hz]
        by_cases hp : 0 < (quarterCs rows)[j]
        · rw [if_pos hp]
          rfl
        · rw [if_neg hp]
          rfl
  · intro i hi ho
    have hbody : (addDailyAvgYoy rows)[i].daily_avg_yoy =
        (match rows.find? (fun p => p.year + 1 = rows[i].year ∧
            p.month = rows[i].month) with
         | some prev =>
             pround0 (pmul100 (pctChange rows[i].daily_avg prev.daily_avg))
         | none => PVal.nan) := by
      simp only [addDailyAvgYoy, List.getElem_map]
    constructor
    · intro hnone
      rw [hbody, hnone]
    · intro prev hsome hzero
      rw [hbody, hsome]
      dsimp only
      rw [hzero]
      unfold pctChange
      rw [if_pos rfl]
      by_cases hz : rows[i].daily_avg = 0
      · rw [if_pos hz]
        rfl
      · rw [if_neg hz]
        by_cases hp : 0 < rows[i].daily_avg
        · rw [if_pos hp]
          rfl
        · rw [if_neg hp]
          rfl
  · intro isHoliday brows i hi ho
    have hb : (addBusinessDaysAndDailyAvg isHoliday brows)[i].business_days =
        (if 1 ≤ brows[i].year ∧ brows[i].year ≤ 9999 ∧
            1 ≤ brows[i].month ∧ brows[i].month ≤ 12 then
          pyBusinessDays isHoliday brows[i].year brows[i].month
        else 0) := by
      simp only [addBusinessDaysAndDailyAvg, List.getElem_map]
    have hd : (addBusinessDaysAndDailyAvg isHoliday brows)[i].daily_avg =
        (if 0 < (if 1 ≤ brows[i].year ∧ brows[i].year ≤ 9999 ∧
              1 ≤ brows[i].month ∧ brows[i].month ≤ 12 then
            pyBusinessDays isHoliday brows[i].year brows[i].month
          else 0) then
          (roundHalfEven (brows[i].export_amount /
            (if 1 ≤ brows[i].year ∧ brows[i].year ≤ 9999 ∧
                1 ≤ brows[i].month ∧ brows[i].month ≤ 12 then
              pyBusinessDays isHoliday brows[i].year brows[i].month
            else 0)) : ℚ)
        else 0) := by
      simp only [addBusinessDaysAndDailyAvg, List.getElem_map]
    intro h0
    rw [hb] at h0
    rw [hd, h0]
    rfl

set_option maxRecDepth 16000 in
/-- Witness for C7: on daily averages `[0, 5]`, the first row's MoM is
`NaN` (no comparison) and the second row's — previous value `0`, current
`5 > 0` — is `+inf`; the prior-year YoY match against a zero daily
average is likewise `+inf`, an unmatched row is `NaN`, and a month whose
business-day count is zero (every day a holiday) gets `daily_avg = 0`. -/
theorem C7_divzero_amended_witness :
    ((addDailyAvgMom [⟨2024, 1, 0⟩, ⟨2024, 2, 5⟩]).get
      ⟨0, by with_unfolding_all decide⟩).daily_avg_mom = PVal.nan ∧
    ((addDailyAvgMom [⟨2024, 1, 0⟩, ⟨2024, 2, 5⟩]).get
      ⟨1, by with_unfolding_all decide⟩).daily_avg_mom = PVal.inf ∧
    ((addDailyAvgYoy [⟨2023, 1, 0⟩, ⟨2024, 1, 5⟩]).get
      ⟨0, by with_unfolding_all decide⟩).daily_avg_yoy = PVal.nan ∧
    ((addDailyAvgYoy [⟨2023, 1, 0⟩, ⟨2024, 1, 5⟩]).get
      ⟨1, by with_unfolding_all decide⟩).daily_avg_yoy = PVal.inf ∧
    ((addBusinessDaysAndDailyAvg (fun _ _ _ => true) [⟨2024, 1, 100⟩]).get
      ⟨0, by with_unfolding_all decide⟩).daily_avg = 0 := by
  have h0 := ((C7_divzero_amended [⟨2024, 1, 0⟩, ⟨2024, 2, 5⟩]).1 0 (by decide)
    (by with_unfolding_all decide)).1 rfl
  have h1 := ((C7_divzero_amended [⟨2024, 1, 0⟩, ⟨2024, 2, 5⟩]).1 1 (by decide)
    (by with_unfolding_all decide)).2 (by decide) (by with_unfolding_all decide)
  have hy0 := ((C7_divzero_amended [⟨2023, 1, 0⟩, ⟨2024, 1, 5⟩]).2.2.2.1 0
    (by decide) (by with_unfolding_all decide)).1 (by with_unfolding_all decide)
  have hy1 := ((C7_divzero_amended [⟨2023, 1, 0⟩, ⟨2024, 1, 5⟩]).2.2.2.1 1
    (by decide) (by with_unfolding_all decide)).2 ⟨2023, 1, 0⟩
    (by with_unfolding_all decide) (by with_unfolding_all decide)
  have hbd := (C7_divzero_amended []).2.2.2.2 (fun _ _ _ => true) [⟨2024, 1, 100⟩]
    0 (by decide) (by with_unfolding_all decide) (by with_unfolding_all decide)
  exact ⟨h0, h1.trans (by with_unfolding_all decide), hy0,
    hy1.trans (by with_unfolding_all decide), hbd⟩
